import Mathlib

/-!
# wasgeit: the venue adapters of `crawler_defs.go`

A shallow embedding of the fourteen `HTMLCrawler` values, of the map
`HTMLCrawlers` and the list `Crawlers`, together with the parts of the Go
standard library (`strings`, `regexp`, `unicode/utf8`, `time`) and of `goquery`
that their closures call.

* A Go string is the list of its bytes.
* A Go run-time panic (slice or index out of range) is the value `none`.
* A `goquery` selection is an oracle that answers `Text()` and `Attr(name)` for
  every navigation path (`Find`, `Parent`) starting at the event fragment.
* Declarations of the package that live in other files (`GetVenueOrPanic`,
  `StripSomeWhiteSpaces`, `wrp`) are the fields of `Env`.
-/

namespace Wasgeit

/-! ## Go strings -/

/-- A Go string: its bytes in order, every element a byte value (0..255). -/
abbrev GoString := List Nat

/-- The UTF-8 encoding of one code point, used to write string constants. -/
def utf8Encode (c : Nat) : GoString :=
  if c < 0x80 then [c]
  else if c < 0x800 then [0xC0 + c / 64, 0x80 + c % 64]
  else if c < 0x10000 then [0xE0 + c / 4096, 0x80 + c / 64 % 64, 0x80 + c % 64]
  else [0xF0 + c / 262144, 0x80 + c / 4096 % 64, 0x80 + c / 64 % 64, 0x80 + c % 64]

/-- The bytes of a string constant of the source. -/
def str (s : String) : GoString :=
  s.toList.flatMap (fun c => utf8Encode c.toNat)

/-- The slice expression `s[lo:hi]`; it panics unless `lo ≤ hi ≤ len(s)`. -/
def slice (s : GoString) (lo hi : Nat) : Option GoString :=
  if lo ≤ hi ∧ hi ≤ s.length then some ((s.drop lo).take (hi - lo)) else none

/-- The slice expression `s[lo:]`; it panics unless `lo ≤ len(s)`. -/
def sliceFrom (s : GoString) (lo : Nat) : Option GoString :=
  if lo ≤ s.length then some (s.drop lo) else none

/-- The index expression `a[i]`; it panics unless `i < len(a)`. -/
def index {α : Type} (a : List α) (i : Nat) : Option α :=
  a.get? i

/-! ## unicode/utf8 and unicode -/

/-- The rune `utf8.RuneError` (U+FFFD). -/
def RuneError : Nat := 0xFFFD

/-- The function `utf8.DecodeRuneInString`: the first rune of `s` and its width in bytes;
an invalid or truncated encoding decodes to `(RuneError, 1)`, the empty string to
`(RuneError, 0)`. -/
def DecodeRuneInString : GoString → Nat × Nat
  | [] => (RuneError, 0)
  | s0 :: t =>
    if s0 < 0x80 then (s0, 1)
    else if s0 < 0xC2 ∨ 0xF4 < s0 then (RuneError, 1)
    else
      let sz := if s0 < 0xE0 then 2 else if s0 < 0xF0 then 3 else 4
      let lo := if s0 = 0xE0 then 0xA0 else if s0 = 0xF0 then 0x90 else 0x80
      let hi := if s0 = 0xED then 0x9F else if s0 = 0xF4 then 0x8F else 0xBF
      if t.length + 1 < sz then (RuneError, 1)
      else
        match t with
        | [] => (RuneError, 1)
        | s1 :: t1 =>
          if s1 < lo ∨ hi < s1 then (RuneError, 1)
          else if sz ≤ 2 then ((s0 % 32) * 64 + s1 % 64, 2)
          else
            match t1 with
            | [] => (RuneError, 1)
            | s2 :: t2 =>
              if s2 < 0x80 ∨ 0xBF < s2 then (RuneError, 1)
              else if sz ≤ 3 then ((s0 % 16) * 4096 + (s1 % 64) * 64 + s2 % 64, 3)
              else
                match t2 with
                | [] => (RuneError, 1)
                | s3 :: _ =>
                  if s3 < 0x80 ∨ 0xBF < s3 then (RuneError, 1)
                  else ((s0 % 8) * 262144 + (s1 % 64) * 4096 + (s2 % 64) * 64 + s3 % 64, 4)

/-- The function `utf8.RuneStart`: the byte is not a continuation byte. -/
def RuneStart (b : Nat) : Bool :=
  !(decide (0x80 ≤ b) && decide (b ≤ 0xBF))

/-- The function `utf8.DecodeLastRuneInString`: the last rune of `s` and its width. -/
def DecodeLastRuneInString (s : GoString) : Nat × Nat :=
  let e := s.length
  if e = 0 then (RuneError, 0)
  else
    let r := s.getD (e - 1) 0
    if r < 0x80 then (r, 1)
    else
      let lim := e - 4
      let start :=
        if 2 ≤ e ∧ RuneStart (s.getD (e - 2) 0) then e - 2
        else if 3 ≤ e ∧ RuneStart (s.getD (e - 3) 0) then e - 3
        else if 4 ≤ e ∧ RuneStart (s.getD (e - 4) 0) then e - 4
        else lim - 1
      let d := DecodeRuneInString ((s.drop start).take (e - start))
      if start + d.2 ≠ e then (RuneError, 1) else d

/-- The function `unicode.IsSpace`: the Latin-1 spaces and the code points with the
`White_Space` property. -/
def IsSpace (r : Nat) : Bool :=
  if r ≤ 0xFF then
    decide (r = 9 ∨ r = 10 ∨ r = 11 ∨ r = 12 ∨ r = 13 ∨ r = 32 ∨ r = 0x85 ∨ r = 0xA0)
  else
    decide (r = 0x1680 ∨ (0x2000 ≤ r ∧ r ≤ 0x200A) ∨ r = 0x2028 ∨ r = 0x2029 ∨ r = 0x202F
      ∨ r = 0x205F ∨ r = 0x3000)

/-! ## strings -/

/-- The function `strings.HasPrefix`. -/
def HasPrefix (s p : GoString) : Bool :=
  p.isPrefixOf s

/-- The function `strings.Index` for a non-empty `sep`: the byte offset of the first
occurrence of `sep` in `s`, `none` for Go's `-1`. -/
def Index (s sep : GoString) : Option Nat :=
  match s with
  | [] => if sep = [] then some 0 else none
  | b :: bs =>
    if HasPrefix (b :: bs) sep then some 0
    else (Index bs sep).map (· + 1)

/-- The loop of `strings.genSplit`: cut at the first occurrence of `sep`, continue behind
it; `n` bounds the number of cuts. -/
def genSplit (sep : GoString) : Nat → GoString → List GoString
  | 0, s => [s]
  | n + 1, s =>
    match Index s sep with
    | none => [s]
    | some m => s.take m :: genSplit sep n (s.drop (m + sep.length))

/-- The function `strings.Split` for a non-empty separator. A string of length `n` holds at
most `n` separators, which bounds the cuts as `strings.Count` does in the library. -/
def Split (s sep : GoString) : List GoString :=
  genSplit sep s.length s

/-- The table `asciiSpace` of package `strings`. -/
def asciiSpace (c : Nat) : Bool :=
  decide (c = 9 ∨ c = 10 ∨ c = 11 ∨ c = 12 ∨ c = 13 ∨ c = 32)

/-- The call `strings.TrimLeftFunc(s, unicode.IsSpace)`: drop leading space runes. -/
def trimLeftSpace : Nat → GoString → GoString
  | 0, s => s
  | n + 1, s =>
    match s with
    | [] => []
    | _ :: _ =>
      let d := DecodeRuneInString s
      if IsSpace d.1 then trimLeftSpace n (s.drop d.2) else s

/-- The call `lastIndexFunc(s[0:i], unicode.IsSpace, false)`: the offset of the last rune
that is no space, `none` for Go's `-1`. -/
def lastIndexNotSpace (s : GoString) : Nat → Nat → Option Nat
  | 0, _ => none
  | n + 1, i =>
    if i = 0 then none
    else
      let d := DecodeLastRuneInString (s.take i)
      if IsSpace d.1 then lastIndexNotSpace s n (i - d.2) else some (i - d.2)

/-- The call `strings.TrimRightFunc(s, unicode.IsSpace)`. -/
def trimRightSpace (s : GoString) : GoString :=
  match lastIndexNotSpace s s.length s.length with
  | none => []
  | some i =>
    if 0x80 ≤ s.getD i 0 then s.take (i + (DecodeRuneInString (s.drop i)).2)
    else s.take (i + 1)

/-- First loop of `strings.TrimSpace`: skip ASCII spaces from the left; the flag tells
that a byte `≥ 0x80` stopped the loop. -/
def trimStart : GoString → Nat → Nat × Bool
  | [], i => (i, false)
  | c :: cs, i =>
    if 0x80 ≤ c then (i, true)
    else if asciiSpace c then trimStart cs (i + 1)
    else (i, false)

/-- Second loop of `strings.TrimSpace`: skip ASCII spaces from the right, down to `start`. -/
def trimStop (s : GoString) (start : Nat) : Nat → Nat × Bool
  | 0 => (0, false)
  | stop + 1 =>
    if stop + 1 ≤ start then (stop + 1, false)
    else if 0x80 ≤ s.getD stop 0 then (stop + 1, true)
    else if asciiSpace (s.getD stop 0) then trimStop s start stop
    else (stop + 1, false)

/-- The function `strings.TrimSpace`: the ASCII fast path, and the rune-wise trimming as
soon as a non-ASCII byte is met. -/
def TrimSpace (s : GoString) : GoString :=
  let a := trimStart s 0
  if a.2 then
    let t := s.drop a.1
    trimRightSpace (trimLeftSpace t.length t)
  else
    let b := trimStop s a.1 s.length
    if b.2 then trimRightSpace ((s.drop a.1).take (b.1 - a.1))
    else (s.drop a.1).take (b.1 - a.1)

/-! ## regexp -/

/-- The rune classes of the two patterns of the source: `\d`, `.` (any rune but the
newline) and a literal ASCII character. -/
inductive RuneClass
  | digit
  | anyNotNL
  | lit (b : Nat)
deriving DecidableEq, Repr

/-- The instructions the two patterns compile to: consume a rune, greedily consume an
optional rune (`x{1,2}` is `x x?`), record the position in a capture slot. -/
inductive Inst
  | rune (c : RuneClass)
  | opt (c : RuneClass)
  | cap (i : Nat)
deriving DecidableEq, Repr

/-- A compiled pattern: the program and the number of capture slots. -/
structure Regexp where
  prog : List Inst
  numCap : Nat

/-- The byte `b` is an ASCII digit. -/
def isDigit (b : Nat) : Bool :=
  decide (48 ≤ b) && decide (b ≤ 57)

/-- One step of the matcher: the width of the rune at the head of `rest` when it is in the
class. The digits and the literals are ASCII, hence one byte wide; the width of `.` is the
width of the decoded rune. -/
def step (c : RuneClass) (rest : GoString) : Option Nat :=
  match rest with
  | [] => none
  | b :: _ =>
    match c with
    | .digit => if isDigit b then some 1 else none
    | .lit x => if b = x then some 1 else none
    | .anyNotNL => if b = 10 then none else some (DecodeRuneInString rest).2

/-- Leftmost-first matching of a program at one position: the greedy branch of an optional
rune is tried first, the other one on failure. The result is the capture slots. -/
def backtrack : List Inst → GoString → Nat → List Nat → Option (List Nat)
  | [], _, _, caps => some caps
  | .cap i :: is, rest, pos, caps => backtrack is rest pos (caps.set i pos)
  | .rune c :: is, rest, pos, caps =>
    match step c rest with
    | some w => backtrack is (rest.drop w) (pos + w) caps
    | none => none
  | .opt c :: is, rest, pos, caps =>
    match step c rest with
    | some w =>
      match backtrack is (rest.drop w) (pos + w) caps with
      | some r => some r
      | none => backtrack is rest pos caps
    | none => backtrack is rest pos caps

/-- Unanchored search: try the program at `pos`, then at the start of the next rune, up to
the end of the text; `skip` counts the bytes of the current rune still to pass. -/
def search (re : Regexp) : GoString → Nat → Nat → Option (List Nat)
  | [], pos, _ => backtrack re.prog [] pos (List.replicate re.numCap 0)
  | b :: bs, pos, 0 =>
    match backtrack re.prog (b :: bs) pos (List.replicate re.numCap 0) with
    | some caps => some caps
    | none => search re bs (pos + 1) ((DecodeRuneInString (b :: bs)).2 - 1)
  | _ :: bs, pos, skip + 1 => search re bs (pos + 1) skip

/-- The leftmost match of `re` in `s` at or behind byte offset `pos`. -/
def Regexp.doExecute (re : Regexp) (s : GoString) (pos : Nat) : Option (List Nat) :=
  search re (s.drop pos) pos 0

/-- The text between two recorded positions. -/
def between (s : GoString) (lo hi : Nat) : GoString :=
  (s.drop lo).take (hi - lo)

/-- The strings of the match and of its groups, from the capture slots. -/
def submatches (s : GoString) (caps : List Nat) : List GoString :=
  (List.range (caps.length / 2)).map
    (fun i => between s (caps.getD (2 * i) 0) (caps.getD (2 * i + 1) 0))

/-- The method `FindString`: the text of the leftmost match, the empty string without one. -/
def Regexp.FindString (re : Regexp) (s : GoString) : GoString :=
  match re.doExecute s 0 with
  | none => []
  | some caps => between s (caps.getD 0 0) (caps.getD 1 0)

/-- The method `FindStringSubmatch`: the match and its groups, the nil slice without a
match. -/
def Regexp.FindStringSubmatch (re : Regexp) (s : GoString) : List GoString :=
  match re.doExecute s 0 with
  | none => []
  | some caps => submatches s caps

/-- The loop of `FindAllStringSubmatch(s, n)` for a pattern that matches no empty string:
successive matches, each searched behind the end of the one before. -/
def findAll (re : Regexp) (s : GoString) : Nat → Nat → List (List GoString)
  | 0, _ => []
  | n + 1, pos =>
    if s.length < pos then []
    else
      match re.doExecute s pos with
      | none => []
      | some caps => submatches s caps :: findAll re s n (caps.getD 1 0)

/-- The method `FindAllStringSubmatch`. -/
def Regexp.FindAllStringSubmatch (re : Regexp) (s : GoString) (n : Nat) :
    List (List GoString) :=
  findAll re s n 0

/-- The repetition `x{lo,hi}`: `lo` copies of `x`, then `hi - lo` greedy optional ones. -/
def rep (c : RuneClass) (lo hi : Nat) : List Inst :=
  List.replicate lo (.rune c) ++ List.replicate (hi - lo) (.opt c)

/-- A literal text of the pattern. -/
def lits (s : String) : List Inst :=
  (str s).map (fun b => .rune (.lit b))

/-- The pattern `(\d{1,2}.\d{1,2} \d{4}) - Doors: (\d{2}:\d{2})`. Slots 0 and 1 bound the
match, 2 and 3 the first group, 4 and 5 the second one. -/
def dateTimeRe : Regexp where
  prog := [.cap 0, .cap 2] ++ rep .digit 1 2 ++ [.rune .anyNotNL] ++ rep .digit 1 2
    ++ lits " " ++ rep .digit 4 4 ++ [.cap 3] ++ lits " - Doors: " ++ [.cap 4]
    ++ rep .digit 2 2 ++ lits ":" ++ rep .digit 2 2 ++ [.cap 5, .cap 1]
  numCap := 6

/-- The pattern `\d{2}:\d{2}`. -/
def timeRe : Regexp where
  prog := [.cap 0] ++ rep .digit 2 2 ++ lits ":" ++ rep .digit 2 2 ++ [.cap 1]
  numCap := 2

/-! ## goquery -/

/-- One navigation step from a selection. -/
inductive Nav
  | find (selector : GoString)
  | parent
deriving DecidableEq, Repr

/-- A `goquery.Selection`, seen from the event fragment: the text and the attributes of
the selection reached by every navigation path. -/
structure Selection where
  text : List Nav → GoString
  attr : List Nav → GoString → Option GoString

/-- The method `Find(selector)`. -/
def Selection.Find (s : Selection) (selector : GoString) : Selection where
  text := fun p => s.text (Nav.find selector :: p)
  attr := fun p => s.attr (Nav.find selector :: p)

/-- The method `Parent()`. -/
def Selection.Parent (s : Selection) : Selection where
  text := fun p => s.text (Nav.parent :: p)
  attr := fun p => s.attr (Nav.parent :: p)

/-- The method `Text()`. -/
def Selection.Text (s : Selection) : GoString :=
  s.text []

/-- The method `Attr(name)`: the value and whether the attribute exists. -/
def Selection.Attr (s : Selection) (name : GoString) : GoString × Bool :=
  match s.attr [] name with
  | some v => (v, true)
  | none => ([], false)

/-- The method `AttrOr(name, default)`: the value of the attribute when it exists, and
the default value otherwise. -/
def Selection.AttrOr (s : Selection) (name defaultValue : GoString) : GoString :=
  match s.attr [] name with
  | some v => v
  | none => defaultValue

/-! ## Declarations of the package outside `crawler_defs.go` -/

/-- Modelled from the spec: the type `Venue` is declared in another file of the package;
the spec gives it a short key, a display name and a base URL, and the source reads the
fields `ShortName` and `URL`. -/
structure Venue where
  ShortName : GoString
  Name : GoString
  URL : GoString
deriving DecidableEq, Repr

/-- The three declarations the adapters use from other files of the package, taken as
parameters: the registry lookup `GetVenueOrPanic` (a lookup that panics aborts the
initialisation of the package, so the adapters exist only where it returned), the function
`StripSomeWhiteSpaces` and the method `wrp.Replace` of the replacer `wrp`. -/
structure Env where
  GetVenueOrPanic : GoString → Venue
  StripSomeWhiteSpaces : GoString → GoString
  wrpReplace : GoString → GoString

/-! ## The adapters -/

/-- The struct `HTMLCrawler`. `GetDateTimeString` is `none` when the Go closure panics.
`LinkBuilder` receives the crawler in Go and reads only `crawler.venue`; a field cannot
take the structure it belongs to, so it receives the venue. -/
structure HTMLCrawler where
  venue : Venue
  EventSelector : GoString
  TimeFormat : GoString
  GetDateTimeString : Selection → Option GoString
  TitleSelector : GoString
  LinkBuilder : Venue → Selection → GoString

/-- The call `c.LinkBuilder(&c, fragment)`. -/
def HTMLCrawler.link (c : HTMLCrawler) (eventSelection : Selection) : GoString :=
  c.LinkBuilder c.venue eventSelection

/-- The calls `fmt.Sprint(a, b)` and `fmt.Sprintf("%s%s", a, b)` on two strings: the two
texts one after the other (`Sprint` adds a space only between operands that are both not
strings). -/
def Sprint (a b : GoString) : GoString :=
  a ++ b

/-- The variable `kairoCrawler`, declared at line 14 of `crawler_defs.go`. -/
def kairoCrawler (env : Env) : HTMLCrawler where
  venue := env.GetVenueOrPanic (str "kairo")
  EventSelector := str "article[id]"
  TimeFormat := str "02.01.200615:04"
  GetDateTimeString := fun eventSelection => do
    let rawDateTimeString := ((eventSelection.Find (str ".concerts_date")).Parent).Text
    let timeString := timeRe.FindString rawDateTimeString
    let dateString ← slice rawDateTimeString 3 13
    return dateString ++ timeString
  TitleSelector := str "h1"
  LinkBuilder := fun venue eventSelection =>
    eventSelection.AttrOr (str "id") venue.URL

/-- The variable `dachstockCrawler`, declared at line 28 of `crawler_defs.go`. -/
def dachstockCrawler (env : Env) : HTMLCrawler where
  venue := env.GetVenueOrPanic (str "dachstock")
  EventSelector := str ".event.event-list"
  TimeFormat := str "2.1 200615:04"
  GetDateTimeString := fun eventSelection => do
    let rawDateTimeString := (eventSelection.Find (str ".event-date")).Text
    let captures := dateTimeRe.FindStringSubmatch rawDateTimeString
    let c1 ← index captures 1
    let c2 ← index captures 2
    return c1 ++ c2
  TitleSelector := str "h3"
  LinkBuilder := fun venue eventSelection =>
    eventSelection.AttrOr (str "data-url") venue.URL

/-- The variable `turnhalleCrawler`, declared at line 42 of `crawler_defs.go`. -/
def turnhalleCrawler (env : Env) : HTMLCrawler where
  venue := env.GetVenueOrPanic (str "turnhalle")
  EventSelector := str ".event"
  TimeFormat := str "02. 01. 0615:04"
  GetDateTimeString := fun eventSelection => do
    let rawDateTimeString := (eventSelection.Find (str "h4")).Text
    let dateString ← slice rawDateTimeString 4 14
    let allMatches := timeRe.FindAllStringSubmatch rawDateTimeString 2
    let timeString :=
      match allMatches with
      | m :: _ => if m.length = 1 then m.headD [] else []
      | [] => []
    return dateString ++ timeString
  TitleSelector := str "h2"
  LinkBuilder := fun venue eventSelection =>
    (eventSelection.Find (str "a")).AttrOr (str "href") venue.URL

/-- The variable `brasserieLorraineCrawler`, declared at line 61 of `crawler_defs.go`. -/
def brasserieLorraineCrawler (env : Env) : HTMLCrawler where
  venue := env.GetVenueOrPanic (str "brasserie-lorraine")
  EventSelector := str ".type-tribe_events"
  TimeFormat := str "January 2"
  GetDateTimeString := fun eventSelection => do
    let rawDateTimeString := (eventSelection.Find (str ".tribe-event-date-start")).Text
    let dateString ← slice rawDateTimeString 0 11
    return TrimSpace dateString
  TitleSelector := str ".tribe-events-list-event-title"
  LinkBuilder := fun venue eventSelection =>
    (eventSelection.Find (str "h2 > a")).AttrOr (str "href") venue.URL

/-- The variable `kofmehlCrawler`, declared at line 75 of `crawler_defs.go`. -/
def kofmehlCrawler (env : Env) : HTMLCrawler where
  venue := env.GetVenueOrPanic (str "kofmehl")
  EventSelector := str ".events__element"
  TimeFormat := str "02.01"
  GetDateTimeString := fun eventSelection => do
    let rawDateTimeString := (eventSelection.Find (str "time")).Text
    let dateString ← slice rawDateTimeString 3 8
    return dateString
  TitleSelector := str ".events__title"
  LinkBuilder := fun venue eventSelection =>
    (eventSelection.Find (str "a.events__link")).AttrOr (str "href") venue.URL

/-- The variable `kiffCrawler`, declared at line 89 of `crawler_defs.go`. -/
def kiffCrawler (env : Env) : HTMLCrawler where
  venue := env.GetVenueOrPanic (str "kiff")
  EventSelector := str ".programm-grid a:not(.teaserlink)"
  TimeFormat := str "2 Jan"
  GetDateTimeString := fun eventSelection =>
    sliceFrom ((eventSelection.Find (str ".event-date")).Text) 3
  TitleSelector := str ".event-title-wrapper > h2"
  LinkBuilder := fun venue eventSelection =>
    let r := eventSelection.Attr (str "href")
    if r.2 then Sprint venue.URL r.1
    else venue.URL

/-- The variable `coqDorCrawler`, declared at line 104 of `crawler_defs.go`. -/
def coqDorCrawler (env : Env) : HTMLCrawler where
  venue := env.GetVenueOrPanic (str "coq-d-or")
  EventSelector := str "#main table:not(.shows)"
  TimeFormat := str "02.01.0615:04"
  GetDateTimeString := fun eventSelection => do
    let rawDateTimeString := (eventSelection.Find (str "td.list_first a")).Text
    let dateString ← index (Split rawDateTimeString (str ", ")) 1
    let rawTimeString := (eventSelection.Find (str "div.entry")).Text
    let timeString := timeRe.FindString rawTimeString
    return dateString ++ timeString
  TitleSelector := str "td.list_second h2"
  LinkBuilder := fun venue eventSelection =>
    (eventSelection.Find (str "td.list_second h2 a")).AttrOr (str "href") venue.URL

/-- The variable `iscCrawler`, declared at line 120 of `crawler_defs.go`. -/
def iscCrawler (env : Env) : HTMLCrawler where
  venue := env.GetVenueOrPanic (str "isc")
  EventSelector := str ".page_programm a.event_preview"
  TimeFormat := str "02.01."
  GetDateTimeString := fun eventSelection =>
    some ((eventSelection.Find (str ".event_title_date")).Text)
  TitleSelector := str ".event_title_title"
  LinkBuilder := fun venue eventSelection =>
    eventSelection.AttrOr (str "href") venue.URL

/-- The variable `mahoganyHallCrawler`, declared at line 132 of `crawler_defs.go`. -/
def mahoganyHallCrawler (env : Env) : HTMLCrawler where
  venue := env.GetVenueOrPanic (str "mahogany-hall")
  EventSelector := str ".view-konzerte .views-row"
  TimeFormat := str "02. January 2006|15.04"
  GetDateTimeString := fun eventSelection => do
    let dateTimeString := (eventSelection.Find (str ".concert-tueroeffnung")).Text
    let dateTimeString := env.StripSomeWhiteSpaces dateTimeString
    let dateTimeString ← index (Split dateTimeString (str ", ")) 1
    let dateTimeString ← index (Split dateTimeString (str "Uhr")) 0
    let b ← index dateTimeString 1
    if b = 46 then
      return str "0" ++ dateTimeString
    return dateTimeString
  TitleSelector := str ".views-field-title h2"
  LinkBuilder := fun venue eventSelection =>
    let href := (eventSelection.Find (str ".views-field-title h2 a")).AttrOr (str "href") (str "")
    Sprint venue.URL href

/-- The variable `heitereFahneCrawler`, declared at line 152 of `crawler_defs.go`. -/
def heitereFahneCrawler (env : Env) : HTMLCrawler where
  venue := env.GetVenueOrPanic (str "heitere-fahne")
  EventSelector := str ".events .event"
  TimeFormat := str "02.01.200615:04"
  GetDateTimeString := fun eventSelection => do
    let rawDateTimeString := ((eventSelection.Find (str ".date + .time")).Parent).Text
    let rawDateTimeString := env.StripSomeWhiteSpaces rawDateTimeString
    let rawDateTimeString := TrimSpace rawDateTimeString
    let a ← slice rawDateTimeString 3 13
    let b ← slice rawDateTimeString 33 38
    return a ++ b
  TitleSelector := str ".alpha.omega.text .inner h2 a"
  LinkBuilder := fun venue eventSelection =>
    let href := (eventSelection.Find (str ".alpha.omega.text .inner h2 a")).AttrOr
      (str "href") (str "")
    Sprint venue.URL href

/-- The variable `onoCrawler`, declared at line 168 of `crawler_defs.go`. -/
def onoCrawler (env : Env) : HTMLCrawler where
  venue := env.GetVenueOrPanic (str "ono")
  EventSelector := str ".EventItem"
  TimeFormat := str "02.01.0615:04"
  GetDateTimeString := fun eventSelection => do
    let rawDateTimeString := (eventSelection.Find (str ".EventInfo.subnav")).Text
    let rawDateTimeString := env.wrpReplace rawDateTimeString
    let dateString ← slice rawDateTimeString 3 11
    let timeString := timeRe.FindString rawDateTimeString
    return dateString ++ timeString
  TitleSelector := str ".EventTextTitle"
  LinkBuilder := fun venue eventSelection =>
    let href := (eventSelection.Find (str ".EventImage a")).AttrOr (str "href") (str "")
    Sprint venue.URL href

/-- The variable `martaCrawler`, declared at line 185 of `crawler_defs.go`. -/
def martaCrawler (env : Env) : HTMLCrawler where
  venue := env.GetVenueOrPanic (str "marta")
  EventSelector := str "table.music tbody tr"
  TimeFormat := str "02.01.200615:04"
  GetDateTimeString := fun eventSelection =>
    let dateString := (eventSelection.Find (str "td:nth-child(1)")).Text
    let rawTimeString := (eventSelection.Find (str "td:nth-child(4)")).Text
    let timeString := timeRe.FindString rawTimeString
    some (dateString ++ timeString)
  TitleSelector := str "td:nth-child(3) p"
  LinkBuilder := fun venue eventSelection =>
    let href := (eventSelection.Find (str ".EventImage a")).AttrOr (str "href") (str "")
    Sprint venue.URL href

/-- The variable `bierhuebeliCrawler`, declared at line 201 of `crawler_defs.go`. -/
def bierhuebeliCrawler (env : Env) : HTMLCrawler where
  venue := env.GetVenueOrPanic (str "bierhuebeli")
  EventSelector := str "ul.bh-event-list.all-events li"
  TimeFormat := str "02.01.06"
  GetDateTimeString := fun eventSelection =>
    let rawTimeString := (eventSelection.Find (str ".evendates")).Text
    slice rawTimeString 8 16
  TitleSelector := str ".eventlink a"
  LinkBuilder := fun venue eventSelection =>
    (eventSelection.Find (str ".eventlink a")).AttrOr (str "href") venue.URL

/-- The variable `dampfzentraleCrawler`, declared at line 214 of `crawler_defs.go`. -/
def dampfzentraleCrawler (env : Env) : HTMLCrawler where
  venue := env.GetVenueOrPanic (str "dampfzentrale")
  EventSelector := str "article .agenda-container"
  TimeFormat := str "2.1.15:04"
  GetDateTimeString := fun eventSelection =>
    let article := eventSelection.Parent.Parent
    let month := (article.Attr (str "data-month")).1
    let day := (article.Attr (str "data-date")).1
    let dateString := day ++ str "." ++ month ++ str "."
    let timeString := TrimSpace ((eventSelection.Find (str ".agenda-details .span1")).Text)
    some (dateString ++ timeString)
  TitleSelector := str "h1.agenda-title"
  LinkBuilder := fun venue eventSelection =>
    let id := eventSelection.Parent.AttrOr (str "id") (str "")
    venue.URL ++ str "#" ++ id

/-- A Go map with string keys: its entries, at most one for a key. -/
abbrev GoMap (α : Type) := List (GoString × α)

/-- The assignment `m[k] = v`: replace the value of `k`, or add the entry. -/
def GoMap.insert {α : Type} (m : GoMap α) (k : GoString) (v : α) : GoMap α :=
  if m.any (fun e => e.1 == k) then m.map (fun e => if e.1 == k then (k, v) else e)
  else m ++ [(k, v)]

/-- The index expression `m[k]` with its `ok` flag. -/
def GoMap.get {α : Type} (m : GoMap α) (k : GoString) : Option α :=
  List.lookup k m

/-- A map literal whose keys are computed at run time: the entries are stored in the order
they are written. -/
def GoMap.literal {α : Type} (entries : List (GoString × α)) : GoMap α :=
  entries.foldl (fun m e => m.insert e.1 e.2) []

def HTMLCrawlers (env : Env) : GoMap HTMLCrawler :=
  GoMap.literal [
    ((iscCrawler env).venue.ShortName, iscCrawler env),
    ((kiffCrawler env).venue.ShortName, kiffCrawler env),
    ((kofmehlCrawler env).venue.ShortName, kofmehlCrawler env),
    ((kairoCrawler env).venue.ShortName, kairoCrawler env),
    ((dachstockCrawler env).venue.ShortName, dachstockCrawler env),
    ((coqDorCrawler env).venue.ShortName, coqDorCrawler env),
    ((turnhalleCrawler env).venue.ShortName, turnhalleCrawler env),
    ((brasserieLorraineCrawler env).venue.ShortName, brasserieLorraineCrawler env),
    ((mahoganyHallCrawler env).venue.ShortName, mahoganyHallCrawler env),
    ((heitereFahneCrawler env).venue.ShortName, heitereFahneCrawler env),
    ((onoCrawler env).venue.ShortName, onoCrawler env),
    ((martaCrawler env).venue.ShortName, martaCrawler env),
    ((bierhuebeliCrawler env).venue.ShortName, bierhuebeliCrawler env),
    ((dampfzentraleCrawler env).venue.ShortName, dampfzentraleCrawler env)]

def Crawlers (env : Env) : List HTMLCrawler := [
  iscCrawler env,
  kiffCrawler env,
  kofmehlCrawler env,
  kairoCrawler env,
  coqDorCrawler env,
  dachstockCrawler env,
  turnhalleCrawler env,
  brasserieLorraineCrawler env,
  mahoganyHallCrawler env,
  heitereFahneCrawler env,
  onoCrawler env,
  martaCrawler env,
  bierhuebeliCrawler env,
  dampfzentraleCrawler env]

/-! ## time -/

/-- The elements `nextStdChunk` cuts the layouts of the adapters into: a literal text, or
one of the reference values `02`, `2`, `01`, `1`, `2006`, `06`, `15`, `04`. -/
inductive Chunk
  | lit (s : GoString)
  | stdZeroDay
  | stdDay
  | stdZeroMonth
  | stdNumMonth
  | stdLongYear
  | stdYear
  | stdHour
  | stdZeroMinute
deriving DecidableEq, Repr

/-- The fields `time.Parse` collects; month and day start at `-1`. -/
structure Parsed where
  year : Int
  month : Int
  day : Int
  hour : Int
  min : Int
deriving DecidableEq, Repr

/-- The function `getnum` of package `time`: one or two digits, exactly two if `fixed`. -/
def getnum (s : GoString) (fixed : Bool) : Option (Int × GoString) :=
  match s with
  | [] => none
  | a :: t =>
    if isDigit a then
      match t with
      | [] => if fixed then none else some (((a - 48 : Nat) : Int), t)
      | b :: t2 =>
        if isDigit b then some ((((a - 48) * 10 + (b - 48) : Nat) : Int), t2)
        else if fixed then none
        else some (((a - 48 : Nat) : Int), t)
    else none

/-- The function `leadingInt` of package `time`: the leading digits as a number, and the
rest. -/
def leadingInt : GoString → Nat → Nat × GoString
  | [], x => (x, [])
  | c :: cs, x => if isDigit c then leadingInt cs (x * 10 + (c - 48)) else (x, c :: cs)

/-- The function `atoi` of package `time`: an optional sign, then digits up to the end. -/
def atoi (s : GoString) : Option Int :=
  let neg := decide (s.head? = some 45)
  let t := if s.head? = some 45 ∨ s.head? = some 43 then s.drop 1 else s
  let r := leadingInt t 0
  if r.2 ≠ [] then none
  else if neg then some (-(r.1 : Int))
  else some (r.1 : Int)

/-- The function `cutspace` of package `time`. -/
def cutspace : GoString → GoString
  | [] => []
  | c :: cs => if c = 32 then cutspace cs else c :: cs

/-- The function `skip` of package `time`: remove the literal `p` from the front of
`value`, a run of spaces of `p` standing for any run of spaces; `cut` tells that the
spaces of `p` being read are part of a run already handled. -/
def skip : GoString → GoString → Bool → Option GoString
  | [], value, _ => some value
  | c :: p, value, cut =>
    if c = 32 then
      if cut then skip p value true
      else
        match value with
        | [] => skip p [] true
        | v :: _ => if v = 32 then skip p (cutspace value) true else none
    else
      match value with
      | [] => none
      | v :: vs => if v = c then skip p vs false else none

/-- The function `isLeap` of package `time`. -/
def isLeap (year : Int) : Bool :=
  decide (year % 4 = 0) && (decide (year % 100 ≠ 0) || decide (year % 400 = 0))

/-- The function `daysIn` of package `time`. -/
def daysIn (month year : Int) : Int :=
  if month = 2 then (if isLeap year then 29 else 28)
  else if month = 4 ∨ month = 6 ∨ month = 9 ∨ month = 11 then 30
  else 31

/-- The loop of `time.Parse` over the chunks of a layout, for the elements of `Chunk`:
each chunk consumes its text from the front of `value`; a range error, a missing digit, a
literal that differs or text left over at the end gives `none`. -/
def parseChunks : List Chunk → GoString → Parsed → Option Parsed
  | [], value, st =>
    if value ≠ [] then none
    else
      let month := if st.month < 0 then 1 else st.month
      let day := if st.day < 0 then 1 else st.day
      if day < 1 ∨ daysIn month st.year < day then none
      else some { st with month := month, day := day }
  | .lit p :: cs, value, st =>
    match skip p value false with
    | none => none
    | some v => parseChunks cs v st
  | .stdZeroDay :: cs, value, st =>
    match getnum value true with
    | none => none
    | some (n, v) => parseChunks cs v { st with day := n }
  | .stdDay :: cs, value, st =>
    match getnum value false with
    | none => none
    | some (n, v) => parseChunks cs v { st with day := n }
  | .stdZeroMonth :: cs, value, st =>
    match getnum value true with
    | none => none
    | some (n, v) => if n ≤ 0 ∨ 12 < n then none else parseChunks cs v { st with month := n }
  | .stdNumMonth :: cs, value, st =>
    match getnum value false with
    | none => none
    | some (n, v) => if n ≤ 0 ∨ 12 < n then none else parseChunks cs v { st with month := n }
  | .stdLongYear :: cs, value, st =>
    if value.length < 4 ∨ ¬ (value.head?.map isDigit = some true) then none
    else
      match atoi (value.take 4) with
      | none => none
      | some y => parseChunks cs (value.drop 4) { st with year := y }
  | .stdYear :: cs, value, st =>
    if value.length < 2 then none
    else
      match atoi (value.take 2) with
      | none => none
      | some y =>
        parseChunks cs (value.drop 2) { st with year := if 69 ≤ y then y + 1900 else y + 2000 }
  | .stdHour :: cs, value, st =>
    match getnum value false with
    | none => none
    | some (n, v) => if n < 0 ∨ 24 ≤ n then none else parseChunks cs v { st with hour := n }
  | .stdZeroMinute :: cs, value, st =>
    match getnum value true with
    | none => none
    | some (n, v) => if n < 0 ∨ 60 ≤ n then none else parseChunks cs v { st with min := n }

/-- The function `time.Parse` on a layout given by its chunks: the date and the time of day
the text denotes, `none` when `Parse` returns an error. -/
def Parse (layout : List Chunk) (value : GoString) : Option Parsed :=
  parseChunks layout value { year := 0, month := -1, day := -1, hour := 0, min := 0 }

/-- The chunks of the layout `02.01.200615:04` (kairo, heitere-fahne, marta). -/
def layoutLongYear : List Chunk :=
  [.stdZeroDay, .lit (str "."), .stdZeroMonth, .lit (str "."), .stdLongYear, .stdHour,
    .lit (str ":"), .stdZeroMinute]

/-- The chunks of the layout `02. 01. 0615:04` (turnhalle). -/
def layoutTurnhalle : List Chunk :=
  [.stdZeroDay, .lit (str ". "), .stdZeroMonth, .lit (str ". "), .stdYear, .stdHour,
    .lit (str ":"), .stdZeroMinute]

/-- The chunks of the layout `02.01.0615:04` (coq-d-or, ono). -/
def layoutShortYear : List Chunk :=
  [.stdZeroDay, .lit (str "."), .stdZeroMonth, .lit (str "."), .stdYear, .stdHour,
    .lit (str ":"), .stdZeroMinute]

/-- The chunks of the layout `2.1 200615:04` (dachstock). -/
def layoutDachstock : List Chunk :=
  [.stdDay, .lit (str "."), .stdNumMonth, .lit (str " "), .stdLongYear, .stdHour,
    .lit (str ":"), .stdZeroMinute]

/-- What `nextStdChunk` finds at the front of a layout: a byte that belongs to the literal
text, an element of `Chunk` with the number of bytes it takes, or `other` for an element
outside `Chunk` and for a byte that can start one (a letter of a month, weekday or zone
name, `_`, `-`, `3`, `4`, `5`, a fraction of a second). -/
inductive StdAt
  | literal
  | std (c : Chunk) (width : Nat)
  | other
deriving DecidableEq, Repr

/-- The cases of the `switch` of `nextStdChunk` at the first byte of `layout`. -/
def stdAt (layout : GoString) : StdAt :=
  match layout with
  | [] => .literal
  | c :: rest =>
    if c = 48 then
      match rest with
      | 49 :: _ => .std .stdZeroMonth 2
      | 50 :: _ => .std .stdZeroDay 2
      | 51 :: _ => .other
      | 52 :: _ => .std .stdZeroMinute 2
      | 53 :: _ => .other
      | 54 :: _ => .std .stdYear 2
      | 48 :: 50 :: _ => .other
      | _ => .literal
    else if c = 49 then
      match rest with
      | 53 :: _ => .std .stdHour 2
      | _ => .std .stdNumMonth 1
    else if c = 50 then
      if layout.take 4 = str "2006" then .std .stdLongYear 4 else .std .stdDay 1
    else if c = 51 ∨ c = 52 ∨ c = 53 then .other
    else if c = 74 ∨ c = 77 ∨ c = 80 ∨ c = 112 ∨ c = 90 ∨ c = 45 ∨ c = 95 then .other
    else if c = 46 ∨ c = 44 then
      match rest with
      | [] => .literal
      | d :: _ =>
        if d = 48 ∨ d = 57 then
          if ((rest.dropWhile (fun b => b = d)).head?.map isDigit) = some true then .literal
          else .other
        else .literal
    else .literal

/-- The loop of `time.Parse` calling `nextStdChunk`: the chunks of a layout, in order;
`lit` is the literal text read since the last element. The result is `none` when the
layout holds something `stdAt` answers with `other`. -/
def layoutChunks : Nat → GoString → GoString → Option (List Chunk)
  | 0, _, _ => none
  | _ + 1, [], lit => some (if lit = [] then [] else [.lit lit])
  | n + 1, c :: rest, lit =>
    match stdAt (c :: rest) with
    | .other => none
    | .literal => layoutChunks n rest (lit ++ [c])
    | .std ch w =>
      (layoutChunks n ((c :: rest).drop w) []).map
        (fun cs => if lit = [] then ch :: cs else .lit lit :: ch :: cs)

/-- The outcome of `time.Parse(layout, value)`: an error, a time, or `notModelled` for a
layout with an element outside `Chunk`. -/
inductive ParseResult
  | notModelled
  | error
  | ok (t : Parsed)
deriving DecidableEq, Repr

/-- The function `time.Parse` on a layout string. -/
def timeParse (layout value : GoString) : ParseResult :=
  match layoutChunks (layout.length + 1) layout [] with
  | none => .notModelled
  | some cs =>
    match Parse cs value with
    | none => .error
    | some t => .ok t

/-! ## Sample environment and fragments -/

/-- Modelled from the spec: `StripSomeWhiteSpaces` and `wrp` are declared in another file
of the package; the spec has the cleanup collapse every run of whitespace, non-breaking
variants included, into a single space. Whitespace is what `unicode.IsSpace` accepts;
`skip` counts the bytes of a space rune still to pass, `run` tells that a space was just
written. -/
def collapseSpaces : GoString → Nat → Bool → GoString
  | [], _, _ => []
  | _ :: bs, skip + 1, run => collapseSpaces bs skip run
  | b :: bs, 0, run =>
    let d := DecodeRuneInString (b :: bs)
    if IsSpace d.1 then
      if run then collapseSpaces bs (d.2 - 1) true
      else 32 :: collapseSpaces bs (d.2 - 1) true
    else b :: collapseSpaces bs 0 false

/-- Modelled from the spec: the venue registry is declared in another file of the package;
the spec has it map a short key to a venue with that key, a display name and a base URL.
This one answers every key. -/
def specRegistry (key : GoString) : Venue where
  ShortName := key
  Name := key
  URL := str "https://" ++ key ++ str ".example/"

/-- An environment built from the two models above. -/
def specEnv : Env where
  GetVenueOrPanic := specRegistry
  StripSomeWhiteSpaces := fun s => collapseSpaces s 0 false
  wrpReplace := fun s => collapseSpaces s 0 false

/-- A fragment in which every selection has the text `t`, and in which no element has
an attribute. -/
def Selection.ofText (t : GoString) : Selection where
  text := fun _ => t
  attr := fun _ _ => none

/-- The fourteen venue keys. -/
def venueKeys : List GoString :=
  [str "isc", str "kiff", str "kofmehl", str "kairo", str "dachstock", str "coq-d-or",
    str "turnhalle", str "brasserie-lorraine", str "mahogany-hall", str "heitere-fahne",
    str "ono", str "marta", str "bierhuebeli", str "dampfzentrale"]

/-! ## Specification vocabulary -/

/-- The runs of a program: `Path prog rest pos caps out` holds when some choice of the
optional runes leads the program through the front of `rest` to the capture slots `out`. -/
def Path : List Inst → GoString → Nat → List Nat → List Nat → Prop
  | [], _, _, caps, out => out = caps
  | .cap i :: is, rest, pos, caps, out => Path is rest pos (caps.set i pos) out
  | .rune c :: is, rest, pos, caps, out =>
    ∃ w, step c rest = some w ∧ Path is (rest.drop w) (pos + w) caps out
  | .opt c :: is, rest, pos, caps, out =>
    (∃ w, step c rest = some w ∧ Path is (rest.drop w) (pos + w) caps out)
      ∨ Path is rest pos caps out

/-- A clock time as the patterns read it: two digits, a colon, two digits. -/
def IsClock (t : GoString) : Prop :=
  ∃ a b c d, t = [a, b, 58, c, d] ∧ isDigit a = true ∧ isDigit b = true
    ∧ isDigit c = true ∧ isDigit d = true

/-- The text holds a clock time somewhere. -/
def ContainsClock (s : GoString) : Prop :=
  ∃ pre t post, s = pre ++ t ++ post ∧ IsClock t

/-- The text `s` matches the format `f` field by field: it has the length of `f`, a digit
wherever `f` has a digit, and the byte of `f` everywhere else. -/
def matchesFormat : GoString → GoString → Bool
  | [], [] => true
  | f :: fs, b :: bs => (if isDigit f then isDigit b else decide (b = f)) && matchesFormat fs bs
  | _, _ => false

/-- The chunks `cs` accept no continuation of a parse that has the text `t` left. -/
def Rejects (cs : List Chunk) (t : GoString) : Prop :=
  ∀ st, parseChunks cs t st = none

/-- Every byte of the text is an ASCII digit. -/
def Digits (l : GoString) : Prop :=
  ∀ b ∈ l, isDigit b = true

instance instDecidableDigits (l : GoString) : Decidable (Digits l) :=
  inferInstanceAs (Decidable (∀ b ∈ l, isDigit b = true))

/-- One or two digits. -/
def OneOrTwoDigits (d : GoString) : Prop :=
  Digits d ∧ (d.length = 1 ∨ d.length = 2)

/-- The bytes `c` are one character other than the newline, as Go decodes it in front of
the text `after`. -/
def IsRune (c after : GoString) : Prop :=
  c ≠ [] ∧ c.head? ≠ some 10 ∧ (DecodeRuneInString (c ++ after)).2 = c.length

/-- The date of the pattern `dateTimeRe`, in front of the text `after`: one or two digits,
any character, one or two digits, a space, four digits. -/
def IsDoorsDate (d after : GoString) : Prop :=
  ∃ d1 c d2 y, d = d1 ++ c ++ d2 ++ [32] ++ y ∧ OneOrTwoDigits d1
    ∧ IsRune c (d2 ++ [32] ++ y ++ after) ∧ OneOrTwoDigits d2 ∧ Digits y ∧ y.length = 4

/-- The text `s` holds a match of `dateTimeRe` behind `pre`: the date `d`, the text
` - Doors: `, the clock time `t`. -/
def IsDoorsMatch (s pre d t post : GoString) : Prop :=
  s = pre ++ d ++ str " - Doors: " ++ t ++ post
    ∧ IsDoorsDate d (str " - Doors: " ++ t ++ post) ∧ IsClock t

theorem backtrack_sound (prog : List Inst) : ∀ (rest : GoString) (pos : Nat) (caps out : List Nat),
    backtrack prog rest pos caps = some out → Path prog rest pos caps out := by
  induction prog with
  | nil =>
    intro rest pos caps out h
    simp only [backtrack, Option.some.injEq] at h
    exact h.symm
  | cons i is ih =>
    intro rest pos caps out h
    cases i with
    | cap n => exact ih _ _ _ _ h
    | rune c =>
      simp only [backtrack] at h
      cases hs : step c rest with
      | none => simp [hs] at h
      | some w =>
        simp only [hs] at h
        exact ⟨w, hs, ih _ _ _ _ h⟩
    | opt c =>
      simp only [backtrack] at h
      cases hs : step c rest with
      | none =>
        simp only [hs] at h
        exact Or.inr (ih _ _ _ _ h)
      | some w =>
        simp only [hs] at h
        cases hb : backtrack is (List.drop w rest) (pos + w) caps with
        | none =>
          simp only [hb] at h
          exact Or.inr (ih _ _ _ _ h)
        | some r =>
          simp only [hb, Option.some.injEq] at h
          subst h
          exact Or.inl ⟨w, hs, ih _ _ _ _ hb⟩

theorem backtrack_complete (prog : List Inst) : ∀ (rest : GoString) (pos : Nat) (caps out : List Nat),
    Path prog rest pos caps out → ∃ r, backtrack prog rest pos caps = some r := by
  induction prog with
  | nil =>
    intro rest pos caps out _
    exact ⟨caps, rfl⟩
  | cons i is ih =>
    intro rest pos caps out h
    cases i with
    | cap n => exact ih _ _ _ _ h
    | rune c =>
      obtain ⟨w, hs, hp⟩ := h
      simp only [backtrack, hs]
      exact ih _ _ _ _ hp
    | opt c =>
      simp only [backtrack]
      rcases h with ⟨w, hs, hp⟩ | hp
      · obtain ⟨r, hr⟩ := ih _ _ _ _ hp
        simp only [hs, hr]
        exact ⟨r, rfl⟩
      · cases hs : step c rest with
        | none => exact ih _ _ _ _ hp
        | some w =>
          simp only
          cases hb : backtrack is (List.drop w rest) (pos + w) caps with
          | none => exact ih _ _ _ _ hp
          | some r => exact ⟨r, rfl⟩

theorem decode_ascii (b : Nat) (bs : GoString) (h1 : b < 0x80) :
    DecodeRuneInString (b :: bs) = (b, 1) := by
  unfold DecodeRuneInString
  dsimp only
  rw [if_pos h1]

theorem lo_bound (b s1 : Nat)
    (h : ¬ ((s1 < if b = 224 then 160 else if b = 240 then 144 else 128) ∨
              (if b = 237 then 159 else if b = 244 then 143 else 191) < s1)) :
    0x80 ≤ s1 := by
  by_contra hc
  apply h
  left
  split_ifs <;> omega

theorem decode_cont (b : Nat) (bs : GoString) (i : Nat)
    (hi : i + 1 < (DecodeRuneInString (b :: bs)).2) :
    ∃ c, bs.get? i = some c ∧ 0x80 ≤ c := by
  by_cases h1 : b < 0x80
  · rw [decode_ascii b bs h1] at hi
    simp at hi
  unfold DecodeRuneInString at hi
  dsimp only at hi
  rw [if_neg h1] at hi
  by_cases h2 : b < 194 ∨ 244 < b
  · rw [if_pos h2] at hi
    simp at hi
  rw [if_neg h2] at hi
  by_cases hlen : (List.length bs + 1 < if b < 224 then 2 else if b < 240 then 3 else 4)
  · rw [if_pos hlen] at hi
    simp at hi
  rw [if_neg hlen] at hi
  rcases bs with _ | ⟨s1, t1⟩
  · simp at hi
  dsimp only at hi
  by_cases hs1 : ((s1 < if b = 224 then 160 else if b = 240 then 144 else 128) ∨
              (if b = 237 then 159 else if b = 244 then 143 else 191) < s1)
  · rw [if_pos hs1] at hi
    simp at hi
  rw [if_neg hs1] at hi
  have hs1' := lo_bound b s1 hs1
  by_cases hz2 : (if b < 224 then 2 else if b < 240 then 3 else 4) ≤ 2
  · rw [if_pos hz2] at hi
    have : i = 0 := by
      have : i + 1 < 2 := by simpa using hi
      omega
    subst this
    exact ⟨s1, rfl, hs1'⟩
  rw [if_neg hz2] at hi
  rcases t1 with _ | ⟨s2, t2⟩
  · simp at hi
  dsimp only at hi
  by_cases hs2 : s2 < 128 ∨ 191 < s2
  · rw [if_pos hs2] at hi
    simp at hi
  rw [if_neg hs2] at hi
  have hs2' : 0x80 ≤ s2 := by omega
  by_cases hz3 : (if b < 224 then 2 else if b < 240 then 3 else 4) ≤ 3
  · rw [if_pos hz3] at hi
    have : i = 0 ∨ i = 1 := by
      have : i + 1 < 3 := by simpa using hi
      omega
    rcases this with rfl | rfl
    · exact ⟨s1, rfl, hs1'⟩
    · exact ⟨s2, rfl, hs2'⟩
  rw [if_neg hz3] at hi
  rcases t2 with _ | ⟨s3, t3⟩
  · simp at hi
  dsimp only at hi
  by_cases hs3 : s3 < 128 ∨ 191 < s3
  · rw [if_pos hs3] at hi
    simp at hi
  rw [if_neg hs3] at hi
  have hs3' : 0x80 ≤ s3 := by omega
  have : i = 0 ∨ i = 1 ∨ i = 2 := by
    have : i + 1 < 4 := by simpa using hi
    omega
  rcases this with rfl | rfl | rfl
  · exact ⟨s1, rfl, hs1'⟩
  · exact ⟨s2, rfl, hs2'⟩
  · exact ⟨s3, rfl, hs3'⟩
theorem search_sound (re : Regexp) : ∀ (rest : GoString) (pos skip : Nat) (caps : List Nat),
    search re rest pos skip = some caps →
    ∃ j, j ≤ rest.length
      ∧ backtrack re.prog (rest.drop j) (pos + j) (List.replicate re.numCap 0) = some caps := by
  intro rest
  induction rest with
  | nil =>
    intro pos skip caps h
    exact ⟨0, le_refl _, by simpa [search] using h⟩
  | cons b bs ih =>
    intro pos skip caps h
    cases skip with
    | zero =>
      simp only [search] at h
      cases hb : backtrack re.prog (b :: bs) pos (List.replicate re.numCap 0) with
      | some r =>
        simp only [hb, Option.some.injEq] at h
        subst h
        exact ⟨0, Nat.zero_le _, by simpa using hb⟩
      | none =>
        simp only [hb] at h
        obtain ⟨j, hj, hbt⟩ := ih _ _ _ h
        refine ⟨j + 1, by simpa using hj, ?_⟩
        simpa [Nat.add_assoc, Nat.add_comm 1 j] using hbt
    | succ k =>
      simp only [search] at h
      obtain ⟨j, hj, hbt⟩ := ih _ _ _ h
      refine ⟨j + 1, by simpa using hj, ?_⟩
      simpa [Nat.add_assoc, Nat.add_comm 1 j] using hbt

theorem search_complete (re : Regexp) : ∀ (rest : GoString) (pos skip k : Nat) (b : Nat)
    (tl : GoString),
    (∀ i, i < skip → ∀ c, rest.get? i = some c → 0x80 ≤ c) →
    rest.drop k = b :: tl → b < 0x80 →
    (∃ r, backtrack re.prog (rest.drop k) (pos + k) (List.replicate re.numCap 0) = some r) →
    ∃ j caps, j ≤ k ∧ search re rest pos skip = some caps
      ∧ backtrack re.prog (rest.drop j) (pos + j) (List.replicate re.numCap 0) = some caps := by
  intro rest
  induction rest with
  | nil =>
    intro pos skip k b tl _ hd
    simp at hd
  | cons a as ih =>
    intro pos skip k b tl hskip hd hb hm
    cases skip with
    | zero =>
      cases hbt : backtrack re.prog (a :: as) pos (List.replicate re.numCap 0) with
      | some r =>
        exact ⟨0, r, Nat.zero_le _, by simp [search, hbt], by simpa using hbt⟩
      | none =>
        cases k with
        | zero =>
          obtain ⟨r, hr⟩ := hm
          simp [hbt] at hr
        | succ k =>
          have hd2 : as.drop k = b :: tl := by simpa using hd
          have hm2 : ∃ r, backtrack re.prog (as.drop k) (pos + 1 + k)
              (List.replicate re.numCap 0) = some r := by
            simpa [Nat.add_assoc, Nat.add_comm 1 k] using hm
          have hsk : ∀ i, i < (DecodeRuneInString (a :: as)).2 - 1 →
              ∀ c, as.get? i = some c → 0x80 ≤ c := by
            intro i hi c hc
            obtain ⟨c2, hc2, hge⟩ := decode_cont a as i (by omega)
            rw [hc] at hc2
            cases hc2
            exact hge
          obtain ⟨j, caps, hj, hs, hbj⟩ := ih (pos + 1) _ k b tl hsk hd2 hb hm2
          refine ⟨j + 1, caps, by omega, by simp [search, hbt, hs], ?_⟩
          simpa [Nat.add_assoc, Nat.add_comm 1 j] using hbj
    | succ s =>
      cases k with
      | zero =>
        exfalso
        have hab : a = b := by
          simp at hd
          exact hd.1
        have := hskip 0 (Nat.succ_pos _) a rfl
        omega
      | succ k =>
        have hd2 : as.drop k = b :: tl := by simpa using hd
        have hm2 : ∃ r, backtrack re.prog (as.drop k) (pos + 1 + k)
            (List.replicate re.numCap 0) = some r := by
          simpa [Nat.add_assoc, Nat.add_comm 1 k] using hm
        have hsk : ∀ i, i < s → ∀ c, as.get? i = some c → 0x80 ≤ c := by
          intro i hi c hc
          exact hskip (i + 1) (by omega) c (by simpa using hc)
        obtain ⟨j, caps, hj, hs, hbj⟩ := ih (pos + 1) _ k b tl hsk hd2 hb hm2
        refine ⟨j + 1, caps, by omega, by simp [search, hs], ?_⟩
        simpa [Nat.add_assoc, Nat.add_comm 1 j] using hbj
theorem step_digit_iff (rest : GoString) (w : Nat) :
    step .digit rest = some w ↔ ∃ b tl, rest = b :: tl ∧ isDigit b = true ∧ w = 1 := by
  cases rest with
  | nil => simp [step]
  | cons b tl =>
    by_cases h : isDigit b = true
    · simp only [step, h, if_true, Option.some.injEq]
      constructor
      · rintro rfl
        exact ⟨b, tl, rfl, h, rfl⟩
      · rintro ⟨_, _, _, _, rfl⟩
        rfl
    · simp [step, h]

theorem step_lit_iff (x : Nat) (rest : GoString) (w : Nat) :
    step (.lit x) rest = some w ↔ ∃ tl, rest = x :: tl ∧ w = 1 := by
  cases rest with
  | nil => simp [step]
  | cons b tl =>
    by_cases h : b = x
    · simp only [step, h, if_true, Option.some.injEq]
      constructor
      · rintro rfl
        exact ⟨tl, rfl, rfl⟩
      · rintro ⟨_, _, rfl⟩
        rfl
    · simp only [step, h, if_false]
      constructor
      · intro hc
        cases hc
      · rintro ⟨_, he, _⟩
        cases he
        exact absurd rfl h

theorem step_any_iff (rest : GoString) (w : Nat) :
    step .anyNotNL rest = some w
      ↔ ∃ b tl, rest = b :: tl ∧ b ≠ 10 ∧ w = (DecodeRuneInString rest).2 := by
  cases rest with
  | nil => simp [step]
  | cons b tl =>
    by_cases h : b = 10
    · simp [step, h]
    · simp only [step, h, if_false, Option.some.injEq]
      constructor
      · rintro rfl
        exact ⟨b, tl, rfl, h, rfl⟩
      · rintro ⟨_, _, _, _, rfl⟩
        rfl

theorem timeRe_prog : timeRe.prog = [.cap 0, .rune .digit, .rune .digit, .rune (.lit 58),
    .rune .digit, .rune .digit, .cap 1] := by
  decide

theorem timeRe_path (rest : GoString) (pos : Nat) (out : List Nat) :
    Path timeRe.prog rest pos [0, 0] out
      ↔ ∃ t tl, rest = t ++ tl ∧ IsClock t ∧ out = [pos, pos + 5] := by
  rw [timeRe_prog]
  simp only [Path, step_digit_iff, step_lit_iff, IsClock]
  constructor
  · rintro ⟨w1, ⟨a, tl1, rfl, ha, rfl⟩, w2, ⟨b, tl2, h2, hb, rfl⟩, w3, ⟨tl3, h3, rfl⟩,
      w4, ⟨c, tl4, h4, hc, rfl⟩, w5, ⟨d, tl5, h5, hd, rfl⟩, rfl⟩
    simp only [List.drop_succ_cons, List.drop_zero] at h2
    subst h2
    simp only [List.drop_succ_cons, List.drop_zero] at h3
    subst h3
    simp only [List.drop_succ_cons, List.drop_zero] at h4
    subst h4
    simp only [List.drop_succ_cons, List.drop_zero] at h5
    subst h5
    exact ⟨[a, b, 58, c, d], tl5, rfl, ⟨a, b, c, d, rfl, ha, hb, hc, hd⟩, by simp [Nat.add_assoc]⟩
  · rintro ⟨t, tl, rfl, ⟨a, b, c, d, rfl, ha, hb, hc, hd⟩, rfl⟩
    exact ⟨1, ⟨a, _, rfl, ha, rfl⟩, 1, ⟨b, _, rfl, hb, rfl⟩, 1, ⟨_, rfl, rfl⟩,
      1, ⟨c, _, rfl, hc, rfl⟩, 1, ⟨d, _, rfl, hd, rfl⟩, by simp [Nat.add_assoc]⟩

theorem isDigit_lt (b : Nat) (h : isDigit b = true) : b < 0x80 := by
  simp [isDigit] at h
  omega

theorem timeRe_search_of_contains (s pre t post : GoString) (h : s = pre ++ t ++ post)
    (ht : IsClock t) :
    ∃ j t2 tl, j ≤ pre.length ∧ s.drop j = t2 ++ tl ∧ IsClock t2
      ∧ timeRe.doExecute s 0 = some [j, j + 5] := by
  obtain ⟨a, b, c, d, rfl, ha, hb, hc, hd⟩ := ht
  have hdrop : s.drop pre.length = a :: ([b, 58, c, d] ++ post) := by
    rw [h]
    simp
  have hp : Path timeRe.prog (s.drop pre.length) (0 + pre.length) [0, 0]
      [0 + pre.length, 0 + pre.length + 5] :=
    (timeRe_path _ _ _).2 ⟨[a, b, 58, c, d], post, by rw [hdrop]; rfl,
      ⟨a, b, c, d, rfl, ha, hb, hc, hd⟩, rfl⟩
  have hc := backtrack_complete _ _ _ _ _ hp
  obtain ⟨j, caps, hj, hs, hbj⟩ := search_complete timeRe s 0 0 pre.length a _
    (fun i hi => absurd hi (Nat.not_lt_zero _)) hdrop (isDigit_lt a ha) hc
  have hpj := backtrack_sound _ _ _ _ _ hbj
  obtain ⟨t2, tl, hd2, ht2, hcaps⟩ := (timeRe_path _ _ _).1 hpj
  refine ⟨j, t2, tl, hj, hd2, ht2, ?_⟩
  simp only [Regexp.doExecute, List.drop_zero, hs, hcaps, Nat.zero_add]

theorem timeRe_search_sound (s : GoString) (caps : List Nat)
    (h : timeRe.doExecute s 0 = some caps) :
    ∃ j t2 tl, s.drop j = t2 ++ tl ∧ IsClock t2 ∧ caps = [j, j + 5] := by
  simp only [Regexp.doExecute, List.drop_zero] at h
  obtain ⟨j, _, hbj⟩ := search_sound timeRe s 0 0 caps h
  have hpj := backtrack_sound _ _ _ _ _ hbj
  obtain ⟨t2, tl, hd2, ht2, hcaps⟩ := (timeRe_path _ _ _).1 hpj
  exact ⟨j, t2, tl, hd2, ht2, by simpa using hcaps⟩

theorem clock_length (t : GoString) (h : IsClock t) : t.length = 5 := by
  obtain ⟨a, b, c, d, rfl, -⟩ := h
  rfl

theorem between_of_drop (s t tl : GoString) (j : Nat) (h : s.drop j = t ++ tl) :
    between s j (j + t.length) = t := by
  simp [between, h]

/-- The method `FindString` of `timeRe` on a text with a clock time returns a clock time
of the text, one that starts no later than any other. -/
theorem timeRe_FindString_of_contains (s pre t post : GoString) (h : s = pre ++ t ++ post)
    (ht : IsClock t) :
    ∃ j t2 tl, j ≤ pre.length ∧ s.drop j = t2 ++ tl ∧ IsClock t2
      ∧ timeRe.FindString s = t2 := by
  obtain ⟨j, t2, tl, hj, hd, ht2, he⟩ := timeRe_search_of_contains s pre t post h ht
  refine ⟨j, t2, tl, hj, hd, ht2, ?_⟩
  simp only [Regexp.FindString, he]
  have := between_of_drop s t2 tl j hd
  rw [clock_length t2 ht2] at this
  simpa using this

/-- Without a clock time in the text, `FindString` of `timeRe` is the empty string. -/
theorem timeRe_FindString_none (s : GoString) (h : ¬ ContainsClock s) :
    timeRe.FindString s = [] := by
  cases he : timeRe.doExecute s 0 with
  | none => simp [Regexp.FindString, he]
  | some caps =>
    exfalso
    obtain ⟨j, t2, tl, hd, ht2, -⟩ := timeRe_search_sound s caps he
    apply h
    refine ⟨s.take j, t2, tl, ?_, ht2⟩
    rw [List.append_assoc, ← hd, List.take_append_drop]

/-! ### Formats -/

theorem matchesFormat_length : ∀ (f s : GoString), matchesFormat f s = true → s.length = f.length
  | [], [], _ => rfl
  | [], _ :: _, h => by simp [matchesFormat] at h
  | _ :: _, [], h => by simp [matchesFormat] at h
  | f :: fs, b :: bs, h => by
    simp only [matchesFormat, Bool.and_eq_true] at h
    simp [matchesFormat_length fs bs h.2]

theorem matchesFormat_append : ∀ (f1 s1 f2 s2 : GoString), matchesFormat f1 s1 = true →
    matchesFormat f2 s2 = true → matchesFormat (f1 ++ f2) (s1 ++ s2) = true
  | [], [], _, _, _, h2 => by simpa using h2
  | [], _ :: _, _, _, h, _ => by simp [matchesFormat] at h
  | _ :: _, [], _, _, h, _ => by simp [matchesFormat] at h
  | f :: fs, b :: bs, f2, s2, h, h2 => by
    simp only [matchesFormat, Bool.and_eq_true] at h
    simp only [List.cons_append, matchesFormat, Bool.and_eq_true]
    exact ⟨h.1, matchesFormat_append fs bs f2 s2 h.2 h2⟩

theorem clock_matchesFormat (t : GoString) (h : IsClock t) :
    matchesFormat (str "15:04") t = true := by
  obtain ⟨a, b, c, d, rfl, ha, hb, hc, hd⟩ := h
  have e : str "15:04" = [49, 53, 58, 48, 52] := by decide
  have d1 : isDigit 49 = true := by decide
  have d2 : isDigit 53 = true := by decide
  have d3 : isDigit 58 = false := by decide
  have d4 : isDigit 48 = true := by decide
  have d5 : isDigit 52 = true := by decide
  rw [e]
  simp [matchesFormat, ha, hb, hc, hd, d1, d2, d3, d4, d5]

theorem submatches_two (s : GoString) (a b : Nat) :
    submatches s [a, b] = [between s a b] := by
  simp only [submatches, List.length_cons, List.length_nil]
  have : (0 + 1 + 1) / 2 = 1 := by norm_num
  rw [this]
  simp [List.range_succ]

/-- The time text turnhalle takes from `FindAllStringSubmatch` is the one `FindString`
returns. -/
theorem findAll_head (s : GoString) :
    (match timeRe.FindAllStringSubmatch s 2 with
      | m :: _ => if m.length = 1 then m.headD [] else []
      | [] => []) = timeRe.FindString s := by
  simp only [Regexp.FindAllStringSubmatch, findAll, Regexp.FindString, Nat.not_lt_zero,
    if_false]
  cases he : timeRe.doExecute s 0 with
  | none => rfl
  | some caps =>
    obtain ⟨j, t2, tl, hd, ht2, rfl⟩ := timeRe_search_sound s caps he
    simp [submatches_two]

/-! ### The layouts -/

theorem shape_longDate (date : GoString) (h : matchesFormat (str "02.01.2006") date = true) :
    ∃ a b c d e f g k, date = [a, b, 46, c, d, 46, e, f, g, k] ∧ isDigit a = true
      ∧ isDigit b = true ∧ isDigit c = true ∧ isDigit d = true ∧ isDigit e = true
      ∧ isDigit f = true ∧ isDigit g = true ∧ isDigit k = true := by
  have e : str "02.01.2006" = [48, 50, 46, 48, 49, 46, 50, 48, 48, 54] := by decide
  rw [e] at h
  have d0 : isDigit 48 = true := by decide
  have d1 : isDigit 49 = true := by decide
  have d2 : isDigit 50 = true := by decide
  have d6 : isDigit 54 = true := by decide
  have dd : isDigit 46 = false := by decide
  rcases date with _ | ⟨a, _ | ⟨b, _ | ⟨c, _ | ⟨d, _ | ⟨e, _ | ⟨f, _ | ⟨g, _ | ⟨h, _ | ⟨i,
    _ | ⟨j, _ | ⟨k, t⟩⟩⟩⟩⟩⟩⟩⟩⟩⟩⟩ <;>
    simp [matchesFormat, d0, d1, d2, d6, dd] at h
  obtain ⟨ha, hb, rfl, hd, he, rfl, hg, hh, hi, hj⟩ := h
  exact ⟨a, b, d, e, g, h, i, j, rfl, ha, hb, hd, he, hg, hh, hi, hj⟩

theorem getnum_fixed (a b : Nat) (t : GoString) (ha : isDigit a = true)
    (hb : isDigit b = true) :
    getnum (a :: b :: t) true = some ((((a - 48) * 10 + (b - 48) : Nat) : Int), t) := by
  simp [getnum, ha, hb]

theorem rejects_hour_empty (cs : List Chunk) : Rejects (.stdHour :: cs) [] := by
  intro st
  simp [parseChunks, getnum]

theorem rejects_zeroDay (cs : List Chunk) (a b : Nat) (t : GoString)
    (ha : isDigit a = true) (hb : isDigit b = true) (h : Rejects cs t) :
    Rejects (.stdZeroDay :: cs) (a :: b :: t) := by
  intro st
  rw [parseChunks, getnum_fixed a b t ha hb]
  exact h _

theorem rejects_zeroMonth (cs : List Chunk) (a b : Nat) (t : GoString)
    (ha : isDigit a = true) (hb : isDigit b = true) (h : Rejects cs t) :
    Rejects (.stdZeroMonth :: cs) (a :: b :: t) := by
  intro st
  rw [parseChunks, getnum_fixed a b t ha hb]
  dsimp only
  split
  · rfl
  · exact h _

theorem rejects_lit (cs : List Chunk) (p v t : GoString) (hs : skip p v false = some t)
    (h : Rejects cs t) : Rejects (.lit p :: cs) v := by
  intro st
  rw [parseChunks, hs]
  exact h _

theorem rejects_longYear (cs : List Chunk) (e f g k : Nat) (t : GoString)
    (h : Rejects cs t) : Rejects (.stdLongYear :: cs) (e :: f :: g :: k :: t) := by
  intro st
  rw [parseChunks]
  split
  · rfl
  · split
    · rfl
    · exact h _

theorem rejects_year (cs : List Chunk) (e f : Nat) (t : GoString)
    (h : Rejects cs t) : Rejects (.stdYear :: cs) (e :: f :: t) := by
  intro st
  rw [parseChunks]
  split
  · rfl
  · split
    · rfl
    · exact h _

theorem skip_dot (t : GoString) : skip (str ".") (46 :: t) false = some t := by
  have e : str "." = [46] := by decide
  simp [e, skip]

theorem skip_dot_space (c : Nat) (t : GoString) (hc : isDigit c = true) :
    skip (str ". ") (46 :: 32 :: c :: t) false = some (c :: t) := by
  have e : str ". " = [46, 32] := by decide
  have hne : c ≠ 32 := by
    rintro rfl
    revert hc
    decide
  simp [e, skip, cutspace, hne]

/-- The layout `02.01.200615:04` rejects a text that is only a date `02.01.2006`. -/
theorem parse_longDate_only (date : GoString)
    (h : matchesFormat (str "02.01.2006") date = true) :
    Parse layoutLongYear date = none := by
  obtain ⟨a, b, c, d, e, f, g, k, rfl, ha, hb, hc, hd, he, hf, hg, hk⟩ := shape_longDate date h
  exact rejects_zeroDay _ a b _ ha hb (rejects_lit _ _ _ _ (skip_dot _)
    (rejects_zeroMonth _ c d _ hc hd (rejects_lit _ _ _ _ (skip_dot _)
      (rejects_longYear _ e f g k [] (rejects_hour_empty _))))) _

theorem shape_shortDate (date : GoString) (h : matchesFormat (str "02.01.06") date = true) :
    ∃ a b c d e f, date = [a, b, 46, c, d, 46, e, f] ∧ isDigit a = true
      ∧ isDigit b = true ∧ isDigit c = true ∧ isDigit d = true ∧ isDigit e = true
      ∧ isDigit f = true := by
  have e : str "02.01.06" = [48, 50, 46, 48, 49, 46, 48, 54] := by decide
  rw [e] at h
  have d0 : isDigit 48 = true := by decide
  have d1 : isDigit 49 = true := by decide
  have d2 : isDigit 50 = true := by decide
  have d6 : isDigit 54 = true := by decide
  have dd : isDigit 46 = false := by decide
  rcases date with _ | ⟨a, _ | ⟨b, _ | ⟨c, _ | ⟨d, _ | ⟨e, _ | ⟨f, _ | ⟨g, _ | ⟨h,
    _ | ⟨k, t⟩⟩⟩⟩⟩⟩⟩⟩⟩ <;>
    simp [matchesFormat, d0, d1, d2, d6, dd] at h
  obtain ⟨ha, hb, rfl, hd, he, rfl, hg, hh⟩ := h
  exact ⟨a, b, d, e, g, h, rfl, ha, hb, hd, he, hg, hh⟩

theorem shape_turnhalleDate (date : GoString)
    (h : matchesFormat (str "02. 01. 06") date = true) :
    ∃ a b c d e f, date = [a, b, 46, 32, c, d, 46, 32, e, f] ∧ isDigit a = true
      ∧ isDigit b = true ∧ isDigit c = true ∧ isDigit d = true ∧ isDigit e = true
      ∧ isDigit f = true := by
  have e : str "02. 01. 06" = [48, 50, 46, 32, 48, 49, 46, 32, 48, 54] := by decide
  rw [e] at h
  have d0 : isDigit 48 = true := by decide
  have d1 : isDigit 49 = true := by decide
  have d2 : isDigit 50 = true := by decide
  have d6 : isDigit 54 = true := by decide
  have dd : isDigit 46 = false := by decide
  have ds : isDigit 32 = false := by decide
  rcases date with _ | ⟨a, _ | ⟨b, _ | ⟨c, _ | ⟨d, _ | ⟨e, _ | ⟨f, _ | ⟨g, _ | ⟨h, _ | ⟨i,
    _ | ⟨j, _ | ⟨k, t⟩⟩⟩⟩⟩⟩⟩⟩⟩⟩⟩ <;>
    simp [matchesFormat, d0, d1, d2, d6, dd, ds] at h
  obtain ⟨ha, hb, rfl, rfl, he, hf, rfl, rfl, hi, hj⟩ := h
  exact ⟨a, b, e, f, i, j, rfl, ha, hb, he, hf, hi, hj⟩

/-- The layout `02.01.0615:04` rejects a text that is only a date `02.01.06`. -/
theorem parse_shortDate_only (date : GoString)
    (h : matchesFormat (str "02.01.06") date = true) :
    Parse layoutShortYear date = none := by
  obtain ⟨a, b, c, d, e, f, rfl, ha, hb, hc, hd, he, hf⟩ := shape_shortDate date h
  exact rejects_zeroDay _ a b _ ha hb (rejects_lit _ _ _ _ (skip_dot _)
    (rejects_zeroMonth _ c d _ hc hd (rejects_lit _ _ _ _ (skip_dot _)
      (rejects_year _ e f [] (rejects_hour_empty _))))) _

/-- The layout `02. 01. 0615:04` rejects a text that is only a date `02. 01. 06`. -/
theorem parse_turnhalleDate_only (date : GoString)
    (h : matchesFormat (str "02. 01. 06") date = true) :
    Parse layoutTurnhalle date = none := by
  obtain ⟨a, b, c, d, e, f, rfl, ha, hb, hc, hd, he, hf⟩ := shape_turnhalleDate date h
  exact rejects_zeroDay _ a b _ ha hb (rejects_lit _ _ _ _ (skip_dot_space c _ hc)
    (rejects_zeroMonth _ c d _ hc hd (rejects_lit _ _ _ _ (skip_dot_space e _ he)
      (rejects_year _ e f [] (rejects_hour_empty _))))) _

/-- A layout of modelled chunks that reject the text makes `time.Parse` report an error. -/
theorem timeParse_error (layout value : GoString) (cs : List Chunk)
    (hc : layoutChunks (layout.length + 1) layout [] = some cs) (hp : Parse cs value = none) :
    timeParse layout value = ParseResult.error := by
  unfold timeParse
  rw [hc]
  simp only [hp]

theorem chunks_longYear :
    layoutChunks ((str "02.01.200615:04").length + 1) (str "02.01.200615:04") []
      = some layoutLongYear := by
  decide

theorem chunks_shortYear :
    layoutChunks ((str "02.01.0615:04").length + 1) (str "02.01.0615:04") []
      = some layoutShortYear := by
  decide

theorem chunks_turnhalle :
    layoutChunks ((str "02. 01. 0615:04").length + 1) (str "02. 01. 0615:04") []
      = some layoutTurnhalle := by
  decide

theorem chunks_dachstock :
    layoutChunks ((str "2.1 200615:04").length + 1) (str "2.1 200615:04") []
      = some layoutDachstock := by
  decide

/-- The format `02.01.200615:04` rejects a text that is only its date part. -/
theorem timeParse_longDate_only (date : GoString)
    (h : matchesFormat ((str "02.01.200615:04").take 10) date = true) :
    timeParse (str "02.01.200615:04") date = ParseResult.error :=
  timeParse_error _ _ _ chunks_longYear (parse_longDate_only date h)

/-- The format `02.01.0615:04` rejects a text that is only its date part. -/
theorem timeParse_shortDate_only (date : GoString)
    (h : matchesFormat ((str "02.01.0615:04").take 8) date = true) :
    timeParse (str "02.01.0615:04") date = ParseResult.error :=
  timeParse_error _ _ _ chunks_shortYear (parse_shortDate_only date h)

/-- The format `02. 01. 0615:04` rejects a text that is only its date part. -/
theorem timeParse_turnhalleDate_only (date : GoString)
    (h : matchesFormat ((str "02. 01. 0615:04").take 10) date = true) :
    timeParse (str "02. 01. 0615:04") date = ParseResult.error :=
  timeParse_error _ _ _ chunks_turnhalle (parse_turnhalleDate_only date h)

theorem not_containsClock (s : GoString) (h : timeRe.FindString s = []) :
    ¬ ContainsClock s := by
  rintro ⟨pre, t, post, hs, ht⟩
  obtain ⟨j, t2, tl, -, -, ht2, hf⟩ := timeRe_FindString_of_contains s pre t post hs ht
  rw [h] at hf
  have := clock_length t2 ht2
  rw [← hf] at this
  simp at this

/-! ### Index and Split -/

theorem hasPrefix_iff (s p : GoString) : HasPrefix s p = true ↔ p <+: s := by
  simp [HasPrefix]

/-- The function `Index` finds nothing exactly when the separator does not occur. -/
theorem Index_none_iff (sep : GoString) : ∀ s : GoString, Index s sep = none ↔ ¬ sep <:+: s := by
  intro s
  induction s with
  | nil =>
    by_cases h : sep = []
    · simp [Index, h]
    · simp [Index, h]
  | cons b bs ih =>
    rw [Index, List.infix_cons_iff]
    by_cases hp : HasPrefix (b :: bs) sep = true
    · rw [if_pos hp]
      simp [(hasPrefix_iff _ _).1 hp]
    · rw [if_neg hp]
      have hn : ¬ sep <+: b :: bs := fun hc => hp ((hasPrefix_iff _ _).2 hc)
      simp [hn, ih]

/-- Where no occurrence of the separator starts inside `x`, the first occurrence in
`x ++ y` is the first one in `y`. -/
theorem Index_append (sep : GoString) : ∀ (x y : GoString),
    (∀ i, i < x.length → ¬ sep <+: (x.drop i ++ y)) →
    Index (x ++ y) sep = (Index y sep).map (· + x.length) := by
  intro x
  induction x with
  | nil =>
    intro y _
    simp
  | cons a x ih =>
    intro y h
    have h0 : ¬ sep <+: a :: (x ++ y) := by
      have := h 0 (by simp)
      simpa using this
    have hp : ¬ HasPrefix (a :: (x ++ y)) sep = true := fun hc => h0 ((hasPrefix_iff _ _).1 hc)
    have hx : ∀ i, i < x.length → ¬ sep <+: (x.drop i ++ y) := by
      intro i hi
      have := h (i + 1) (by simpa using hi)
      simpa using this
    rw [List.cons_append, Index, if_neg hp, ih y hx]
    cases Index y sep with
    | none => rfl
    | some m => simp [Nat.add_assoc]

theorem Index_head (c : Nat) (sep y : GoString) : Index (c :: sep ++ y) (c :: sep) = some 0 := by
  have hp : HasPrefix (c :: (sep ++ y)) (c :: sep) = true := by
    rw [hasPrefix_iff]
    exact ⟨y, rfl⟩
  rw [List.cons_append, Index, if_pos hp]

/-- No occurrence starts in a text that lacks the first byte of the separator. -/
theorem no_occ_head_free (c1 : Nat) (sep x y : GoString) (h : ∀ b ∈ x, b ≠ c1) :
    ∀ i, i < x.length → ¬ (c1 :: sep) <+: (x.drop i ++ y) := by
  intro i hi hp
  rw [List.drop_eq_getElem_cons hi, List.cons_append, List.cons_prefix_cons] at hp
  exact h _ (List.getElem_mem hi) hp.1.symm

/-- No occurrence of a two-byte separator starts in `x` when `x` does not hold it and
`y` does not start with its second byte. -/
theorem no_occ_two (c1 c2 : Nat) (x y : GoString) (hx : ¬ [c1, c2] <:+: x)
    (hy : y.head? ≠ some c2) :
    ∀ i, i < x.length → ¬ [c1, c2] <+: (x.drop i ++ y) := by
  intro i hi hp
  rcases hd : x.drop i with _ | ⟨a, _ | ⟨a2, t⟩⟩
  · have hl := congrArg List.length hd
    simp at hl
    omega
  · rw [hd] at hp
    simp only [List.cons_append, List.nil_append, List.cons_prefix_cons] at hp
    obtain ⟨-, hp2⟩ := hp
    cases y with
    | nil => simp at hp2
    | cons b y2 =>
      simp only [List.cons_prefix_cons] at hp2
      exact hy (by simp [hp2.1])
  · rw [hd] at hp
    simp only [List.cons_append, List.cons_prefix_cons] at hp
    obtain ⟨h1, h2, -⟩ := hp
    apply hx
    refine ⟨x.take i, t, ?_⟩
    have e := List.take_append_drop i x
    rw [hd] at e
    rw [h1, h2]
    simpa using e

/-- The same for a three-byte separator: `y` starts neither with its second nor with its
third byte. -/
theorem no_occ_three (c1 c2 c3 : Nat) (x y : GoString) (hx : ¬ [c1, c2, c3] <:+: x)
    (hy2 : y.head? ≠ some c2) (hy3 : y.head? ≠ some c3) :
    ∀ i, i < x.length → ¬ [c1, c2, c3] <+: (x.drop i ++ y) := by
  intro i hi hp
  rcases hd : x.drop i with _ | ⟨a, _ | ⟨a2, _ | ⟨a3, t⟩⟩⟩
  · have hl := congrArg List.length hd
    simp at hl
    omega
  · rw [hd] at hp
    simp only [List.cons_append, List.nil_append, List.cons_prefix_cons] at hp
    obtain ⟨-, hp2⟩ := hp
    cases y with
    | nil => simp at hp2
    | cons b y2 =>
      simp only [List.cons_prefix_cons] at hp2
      exact hy2 (by simp [hp2.1])
  · rw [hd] at hp
    simp only [List.cons_append, List.nil_append, List.cons_prefix_cons] at hp
    obtain ⟨-, -, hp2⟩ := hp
    cases y with
    | nil => simp at hp2
    | cons b y2 =>
      simp only [List.cons_prefix_cons] at hp2
      exact hy3 (by simp [hp2.1])
  · rw [hd] at hp
    simp only [List.cons_append, List.cons_prefix_cons] at hp
    obtain ⟨h1, h2, h3, -⟩ := hp
    apply hx
    refine ⟨x.take i, t, ?_⟩
    have e := List.take_append_drop i x
    rw [hd] at e
    rw [h1, h2, h3]
    simpa using e

/-- The first piece of `genSplit`. -/
theorem genSplit_head (sep : GoString) (hsep : sep ≠ []) (n : Nat) (b : GoString)
    (hn : b.length ≤ n) :
    (genSplit sep n b).head? = some (match Index b sep with
      | none => b
      | some m => b.take m) := by
  cases n with
  | zero =>
    have hb : b = [] := List.eq_nil_of_length_eq_zero (Nat.le_zero.1 hn)
    subst hb
    simp [genSplit, Index, hsep]
  | succ n =>
    rw [genSplit]
    cases Index b sep <;> rfl

/-- The piece of index 0 of `Split`: the text before the first separator. -/
theorem index0_split (s sep : GoString) :
    index (Split s sep) 0 = some (match Index s sep with
      | none => s
      | some m => s.take m) := by
  unfold Split index
  cases hn : s.length with
  | zero =>
    have hs : s = [] := List.eq_nil_of_length_eq_zero hn
    subst hs
    cases Index [] sep <;> simp [genSplit]
  | succ n =>
    rw [genSplit]
    cases Index s sep <;> rfl

/-- Without a separator in the text, `Split` has no piece of index 1. -/
theorem index1_split_none (s sep : GoString) (h : Index s sep = none) :
    index (Split s sep) 1 = none := by
  unfold Split index
  cases s.length with
  | zero => rfl
  | succ n =>
    rw [genSplit, h]
    rfl

/-- The piece of index 1 of `Split`: the text behind the first separator, up to the
second one. -/
theorem index1_split (s sep : GoString) (hsep : sep ≠ []) (m : Nat)
    (h : Index s sep = some m) :
    index (Split s sep) 1 = some (match Index (s.drop (m + sep.length)) sep with
      | none => s.drop (m + sep.length)
      | some k => (s.drop (m + sep.length)).take k) := by
  unfold Split index
  cases hn : s.length with
  | zero =>
    have hs : s = [] := List.eq_nil_of_length_eq_zero hn
    subst hs
    simp [Index, hsep] at h
  | succ n =>
    rw [genSplit, h]
    have hl : (s.drop (m + sep.length)).length ≤ n := by
      have : 0 < sep.length := List.length_pos.2 hsep
      simp only [List.length_drop, hn]
      omega
    have := genSplit_head sep hsep n (s.drop (m + sep.length)) hl
    simpa [List.head?_eq_getElem?] using this
theorem digit_ne (b c : Nat) (hb : isDigit b = true) (hc : isDigit c = false) : b ≠ c := by
  rintro rfl
  rw [hb] at hc
  cases hc

/-- In `day. rest` followed by `Uhr`, the first `Uhr` is the one that follows. -/
theorem Index_uhr (day rest z : GoString) (hday : ∀ b ∈ day, isDigit b = true)
    (hr : ¬ [85, 104, 114] <:+: rest) :
    Index (day ++ ([46, 32] ++ (rest ++ ([85, 104, 114] ++ z)))) [85, 104, 114]
      = some (day ++ ([46, 32] ++ rest)).length := by
  rw [Index_append _ day _ (no_occ_head_free 85 _ day _
    (fun b hb => digit_ne b 85 (hday b hb) (by decide)))]
  rw [Index_append _ [46, 32] _ (no_occ_head_free 85 _ [46, 32] _ (by decide))]
  rw [Index_append _ rest _ (no_occ_three 85 104 114 rest _ hr (by simp) (by simp))]
  rw [Index_head]
  simp only [Option.map_some', List.length_append, List.length_cons, List.length_nil]
  congr 1
  omega

/-- In `day. rest` followed by `Uhr` and more text, a `, ` occurs first in that text. -/
theorem Index_comma (day rest z : GoString) (hday : ∀ b ∈ day, isDigit b = true)
    (hr : ¬ [44, 32] <:+: rest) :
    Index (day ++ ([46, 32] ++ (rest ++ ([85, 104, 114] ++ z)))) [44, 32]
      = (Index z [44, 32]).map (· + (day ++ ([46, 32] ++ (rest ++ [85, 104, 114]))).length) := by
  rw [Index_append _ day _ (no_occ_head_free 44 _ day _
    (fun b hb => digit_ne b 44 (hday b hb) (by decide)))]
  rw [Index_append _ [46, 32] _ (no_occ_head_free 44 _ [46, 32] _ (by decide))]
  rw [Index_append _ rest _ (no_occ_two 44 32 rest _ hr (by simp))]
  rw [Index_append _ [85, 104, 114] _ (no_occ_head_free 44 _ [85, 104, 114] _ (by decide))]
  cases Index z [44, 32] with
  | none => rfl
  | some m =>
    simp only [Option.map_some', List.length_append, List.length_cons, List.length_nil]
    congr 1
    omega

/-- The two cuts of mahogany-hall on a cleaned text `pfx, day. restUhrsfx`: the piece
behind the first `, ` and before the first `Uhr` is `day. rest`. -/
theorem mahogany_piece (pfx day rest sfx : GoString) (hpfx : ¬ [44, 32] <:+: pfx)
    (hr1 : ¬ [44, 32] <:+: rest) (hr2 : ¬ [85, 104, 114] <:+: rest)
    (hday : ∀ b ∈ day, isDigit b = true) :
    ∃ p1, index (Split (pfx ++ ([44, 32] ++ (day ++ ([46, 32] ++ (rest
          ++ ([85, 104, 114] ++ sfx)))))) [44, 32]) 1 = some p1
      ∧ index (Split p1 [85, 104, 114]) 0 = some (day ++ ([46, 32] ++ rest)) := by
  have h1 : Index (pfx ++ ([44, 32] ++ (day ++ ([46, 32] ++ (rest
      ++ ([85, 104, 114] ++ sfx)))))) [44, 32] = some pfx.length := by
    rw [Index_append _ pfx _ (no_occ_two 44 32 pfx _ hpfx (by simp))]
    have := Index_head 44 [32] (day ++ ([46, 32] ++ (rest ++ ([85, 104, 114] ++ sfx))))
    simp only [List.cons_append, List.nil_append] at this ⊢
    rw [this]
    simp
  have hdrop : (pfx ++ ([44, 32] ++ (day ++ ([46, 32] ++ (rest
      ++ ([85, 104, 114] ++ sfx)))))).drop (pfx.length + ([44, 32] : GoString).length)
      = day ++ ([46, 32] ++ (rest ++ ([85, 104, 114] ++ sfx))) := by
    simp
  have h2 := index1_split _ [44, 32] (by simp) pfx.length h1
  rw [hdrop, Index_comma day rest sfx hday hr1] at h2
  have key : ∀ z, index (Split (day ++ ([46, 32] ++ (rest ++ ([85, 104, 114] ++ z))))
      [85, 104, 114]) 0 = some (day ++ ([46, 32] ++ rest)) := by
    intro z
    rw [index0_split, Index_uhr day rest z hday hr2]
    simp only [Option.some.injEq]
    rw [show day ++ ([46, 32] ++ (rest ++ ([85, 104, 114] ++ z)))
      = (day ++ ([46, 32] ++ rest)) ++ ([85, 104, 114] ++ z) by simp]
    exact List.take_left' rfl
  cases hz : Index sfx [44, 32] with
  | none =>
    rw [hz] at h2
    exact ⟨_, h2, key sfx⟩
  | some m =>
    rw [hz] at h2
    refine ⟨_, h2, ?_⟩
    simp only [Option.map_some']
    have ht : (day ++ ([46, 32] ++ (rest ++ ([85, 104, 114] ++ sfx)))).take
        (m + (day ++ ([46, 32] ++ (rest ++ [85, 104, 114]))).length)
        = day ++ ([46, 32] ++ (rest ++ ([85, 104, 114] ++ sfx.take m))) := by
      rw [show day ++ ([46, 32] ++ (rest ++ ([85, 104, 114] ++ sfx)))
        = (day ++ ([46, 32] ++ (rest ++ [85, 104, 114]))) ++ sfx by simp]
      rw [Nat.add_comm, List.take_append]
      simp
    rw [ht]
    exact key _

/-! ### The pattern `dateTimeRe` -/

theorem decode_width_le (s : GoString) : (DecodeRuneInString s).2 ≤ s.length := by
  cases s with
  | nil => simp [DecodeRuneInString]
  | cons b bs =>
    by_cases h : 2 ≤ (DecodeRuneInString (b :: bs)).2
    · obtain ⟨c, hc, -⟩ := decode_cont b bs ((DecodeRuneInString (b :: bs)).2 - 2) (by omega)
      have hlt : (DecodeRuneInString (b :: bs)).2 - 2 < bs.length := by
        by_contra hn
        rw [List.get?_eq_none.2 (by omega)] at hc
        cases hc
      simp only [List.length_cons]
      omega
    · simp only [List.length_cons]
      omega

theorem decode_width_pos (b : Nat) (bs : GoString) : 1 ≤ (DecodeRuneInString (b :: bs)).2 := by
  by_cases h1 : b < 0x80
  · rw [decode_ascii b bs h1]
  unfold DecodeRuneInString
  dsimp only
  rw [if_neg h1]
  by_cases h2 : b < 194 ∨ 244 < b
  · rw [if_pos h2]
  rw [if_neg h2]
  by_cases hlen : (List.length bs + 1 < if b < 224 then 2 else if b < 240 then 3 else 4)
  · rw [if_pos hlen]
  rw [if_neg hlen]
  rcases bs with _ | ⟨s1, t1⟩
  · exact le_refl _
  dsimp only
  by_cases hs1 : ((s1 < if b = 224 then 160 else if b = 240 then 144 else 128) ∨
              (if b = 237 then 159 else if b = 244 then 143 else 191) < s1)
  · rw [if_pos hs1]
  rw [if_neg hs1]
  by_cases hz2 : (if b < 224 then 2 else if b < 240 then 3 else 4) ≤ 2
  · rw [if_pos hz2]
    exact Nat.succ_le_succ (Nat.zero_le _)
  rw [if_neg hz2]
  rcases t1 with _ | ⟨s2, t2⟩
  · exact le_refl _
  dsimp only
  by_cases hs2 : s2 < 128 ∨ 191 < s2
  · rw [if_pos hs2]
  rw [if_neg hs2]
  by_cases hz3 : (if b < 224 then 2 else if b < 240 then 3 else 4) ≤ 3
  · rw [if_pos hz3]
    exact Nat.succ_le_succ (Nat.zero_le _)
  rw [if_neg hz3]
  rcases t2 with _ | ⟨s3, t3⟩
  · exact le_refl _
  dsimp only
  by_cases hs3 : s3 < 128 ∨ 191 < s3
  · rw [if_pos hs3]
  rw [if_neg hs3]
  exact Nat.succ_le_succ (Nat.zero_le _)

theorem path_digit (is : List Inst) (rest : GoString) (pos : Nat) (caps out : List Nat) :
    Path (.rune .digit :: is) rest pos caps out
      ↔ ∃ b tl, rest = b :: tl ∧ isDigit b = true ∧ Path is tl (pos + 1) caps out := by
  simp only [Path, step_digit_iff]
  constructor
  · rintro ⟨w, ⟨b, tl, rfl, hb, rfl⟩, hp⟩
    exact ⟨b, tl, rfl, hb, by simpa using hp⟩
  · rintro ⟨b, tl, rfl, hb, hp⟩
    exact ⟨1, ⟨b, tl, rfl, hb, rfl⟩, by simpa using hp⟩

theorem path_lit (x : Nat) (is : List Inst) (rest : GoString) (pos : Nat)
    (caps out : List Nat) :
    Path (.rune (.lit x) :: is) rest pos caps out
      ↔ ∃ tl, rest = x :: tl ∧ Path is tl (pos + 1) caps out := by
  simp only [Path, step_lit_iff]
  constructor
  · rintro ⟨w, ⟨tl, rfl, rfl⟩, hp⟩
    exact ⟨tl, rfl, by simpa using hp⟩
  · rintro ⟨tl, rfl, hp⟩
    exact ⟨1, ⟨tl, rfl, rfl⟩, by simpa using hp⟩

theorem path_any (is : List Inst) (rest : GoString) (pos : Nat) (caps out : List Nat) :
    Path (.rune .anyNotNL :: is) rest pos caps out
      ↔ ∃ c tl, rest = c ++ tl ∧ IsRune c tl ∧ Path is tl (pos + c.length) caps out := by
  simp only [Path, step_any_iff]
  constructor
  · rintro ⟨w, ⟨b, tl, rfl, hb, rfl⟩, hp⟩
    have hle := decode_width_le (b :: tl)
    have hpos := decode_width_pos b tl
    refine ⟨(b :: tl).take (DecodeRuneInString (b :: tl)).2,
      (b :: tl).drop (DecodeRuneInString (b :: tl)).2, (List.take_append_drop _ _).symm,
      ⟨?_, ?_, ?_⟩, ?_⟩
    · intro hc
      have := congrArg List.length hc
      simp only [List.length_take, List.length_nil] at this
      omega
    · obtain ⟨k, hk⟩ : ∃ k, (DecodeRuneInString (b :: tl)).2 = k + 1 := ⟨_, (Nat.sub_add_cancel hpos).symm⟩
      rw [hk]
      simpa using hb
    · rw [List.take_append_drop, List.length_take]
      omega
    · rw [List.length_take, Nat.min_eq_left hle]
      exact hp
  · rintro ⟨c, tl, rfl, ⟨hne, hnl, hw⟩, hp⟩
    cases c with
    | nil => exact absurd rfl hne
    | cons b c2 =>
      refine ⟨(b :: c2).length, ⟨b, c2 ++ tl, rfl, by simpa using hnl, hw.symm⟩, ?_⟩
      rw [List.drop_left]
      exact hp

theorem path_lits (l : GoString) (is : List Inst) : ∀ (rest : GoString) (pos : Nat)
    (caps out : List Nat),
    Path (l.map (fun b => Inst.rune (.lit b)) ++ is) rest pos caps out
      ↔ ∃ tl, rest = l ++ tl ∧ Path is tl (pos + l.length) caps out := by
  induction l with
  | nil =>
    intro rest pos caps out
    simp
  | cons x l ih =>
    intro rest pos caps out
    rw [List.map_cons, List.cons_append, path_lit]
    constructor
    · rintro ⟨tl, rfl, hp⟩
      obtain ⟨tl2, rfl, hp2⟩ := (ih _ _ _ _).1 hp
      exact ⟨tl2, rfl, by simpa [Nat.add_assoc, Nat.add_comm 1] using hp2⟩
    · rintro ⟨tl, rfl, hp⟩
      exact ⟨l ++ tl, rfl, (ih _ _ _ _).2 ⟨tl, rfl, by
        simpa [Nat.add_assoc, Nat.add_comm 1] using hp⟩⟩

theorem path_digits12 (is : List Inst) (rest : GoString) (pos : Nat) (caps out : List Nat) :
    Path (rep .digit 1 2 ++ is) rest pos caps out
      ↔ ∃ d tl, rest = d ++ tl ∧ OneOrTwoDigits d ∧ Path is tl (pos + d.length) caps out := by
  have e : rep .digit 1 2 ++ is = .rune .digit :: .opt .digit :: is := rfl
  rw [e, path_digit]
  simp only [Path, step_digit_iff]
  constructor
  · rintro ⟨b, tl, rfl, hb, ⟨w, ⟨b2, tl2, rfl, hb2, rfl⟩, hp⟩ | hp⟩
    · refine ⟨[b, b2], tl2, rfl, ⟨?_, Or.inr rfl⟩, by simpa [Nat.add_assoc] using hp⟩
      intro x hx
      simp only [List.mem_cons, List.mem_singleton, List.not_mem_nil, or_false] at hx
      rcases hx with rfl | rfl
      · exact hb
      · exact hb2
    · exact ⟨[b], tl, rfl, ⟨by simpa [Digits] using hb, Or.inl rfl⟩, by simpa using hp⟩
  · rintro ⟨d, tl, rfl, ⟨hd, hl | hl⟩, hp⟩
    · obtain ⟨b, rfl⟩ := List.length_eq_one.1 hl
      exact ⟨b, tl, rfl, hd b (by simp), Or.inr (by simpa using hp)⟩
    · obtain ⟨b, b2, rfl⟩ := List.length_eq_two.1 hl
      exact ⟨b, b2 :: tl, rfl, hd b (by simp),
        Or.inl ⟨1, ⟨b2, tl, rfl, hd b2 (by simp), rfl⟩, by simpa [Nat.add_assoc] using hp⟩⟩

theorem path_digits4 (is : List Inst) (rest : GoString) (pos : Nat) (caps out : List Nat) :
    Path (rep .digit 4 4 ++ is) rest pos caps out
      ↔ ∃ y tl, rest = y ++ tl ∧ Digits y ∧ y.length = 4 ∧ Path is tl (pos + 4) caps out := by
  have e : rep .digit 4 4 ++ is
      = .rune .digit :: .rune .digit :: .rune .digit :: .rune .digit :: is := rfl
  rw [e]
  simp only [path_digit]
  constructor
  · rintro ⟨a, _, rfl, ha, b, _, rfl, hb, c, _, rfl, hc, d, tl, rfl, hd, hp⟩
    refine ⟨[a, b, c, d], tl, rfl, ?_, rfl, by simpa [Nat.add_assoc] using hp⟩
    intro x hx
    simp only [List.mem_cons, List.mem_singleton, List.not_mem_nil, or_false] at hx
    rcases hx with rfl | rfl | rfl | rfl <;> assumption
  · rintro ⟨y, tl, rfl, hy, hl, hp⟩
    rcases y with _ | ⟨a, _ | ⟨b, _ | ⟨c, _ | ⟨d, _ | ⟨e2, y⟩⟩⟩⟩⟩ <;> simp at hl
    exact ⟨a, _, rfl, hy a (by simp), b, _, rfl, hy b (by simp), c, _, rfl, hy c (by simp),
      d, tl, rfl, hy d (by simp), by simpa [Nat.add_assoc] using hp⟩

theorem path_clock (is : List Inst) (rest : GoString) (pos : Nat) (caps out : List Nat) :
    Path (rep .digit 2 2 ++ (lits ":" ++ (rep .digit 2 2 ++ is))) rest pos caps out
      ↔ ∃ t tl, rest = t ++ tl ∧ IsClock t ∧ Path is tl (pos + 5) caps out := by
  have e : rep .digit 2 2 ++ (lits ":" ++ (rep .digit 2 2 ++ is))
      = .rune .digit :: .rune .digit :: .rune (.lit 58) :: .rune .digit :: .rune .digit :: is :=
    rfl
  rw [e]
  simp only [path_digit, path_lit]
  constructor
  · rintro ⟨a, _, rfl, ha, b, _, rfl, hb, _, rfl, c, _, rfl, hc, d, tl, rfl, hd, hp⟩
    exact ⟨[a, b, 58, c, d], tl, rfl, ⟨a, b, c, d, rfl, ha, hb, hc, hd⟩,
      by simpa [Nat.add_assoc] using hp⟩
  · rintro ⟨t, tl, rfl, ⟨a, b, c, d, rfl, ha, hb, hc, hd⟩, hp⟩
    exact ⟨a, _, rfl, ha, b, _, rfl, hb, _, rfl, c, _, rfl, hc, d, tl, rfl, hd,
      by simpa [Nat.add_assoc] using hp⟩
theorem path_cap (i : Nat) (is : List Inst) (rest : GoString) (pos : Nat)
    (caps out : List Nat) :
    Path (.cap i :: is) rest pos caps out ↔ Path is rest pos (caps.set i pos) out :=
  Iff.rfl

theorem path_nil (rest : GoString) (pos : Nat) (caps out : List Nat) :
    Path [] rest pos caps out ↔ out = caps :=
  Iff.rfl

theorem dateTimeRe_prog : dateTimeRe.prog = .cap 0 :: .cap 2 :: (rep .digit 1 2
    ++ (.rune .anyNotNL :: (rep .digit 1 2 ++ ([32].map (fun b => Inst.rune (.lit b))
    ++ (rep .digit 4 4 ++ (.cap 3 :: ((str " - Doors: ").map (fun b => Inst.rune (.lit b))
    ++ (.cap 4 :: (rep .digit 2 2 ++ (lits ":" ++ (rep .digit 2 2
    ++ [.cap 5, .cap 1]))))))))))) := by
  decide

/-- The runs of `dateTimeRe` at one position are the matches written out: a date, the text
` - Doors: `, a clock time; the slots hold the bounds of the match and of the groups. -/
theorem dateTimeRe_path (rest : GoString) (pos : Nat) (out : List Nat) :
    Path dateTimeRe.prog rest pos (List.replicate 6 0) out
      ↔ ∃ d t post, rest = d ++ str " - Doors: " ++ t ++ post
          ∧ IsDoorsDate d (str " - Doors: " ++ t ++ post) ∧ IsClock t
          ∧ out = [pos, pos + d.length + 15, pos, pos + d.length, pos + d.length + 10,
              pos + d.length + 15] := by
  have hsep : (str " - Doors: ").length = 10 := by decide
  rw [dateTimeRe_prog]
  simp only [path_cap, path_nil, path_digits12, path_any, path_lits, path_digits4, path_clock]
  constructor
  · rintro ⟨d1, _, rfl, h1, c, _, rfl, hc, d2, _, rfl, h2, _, rfl, y, _, rfl, hy, hl, _, rfl,
      t, post, rfl, ht, rfl⟩
    refine ⟨d1 ++ c ++ d2 ++ [32] ++ y, t, post, by simp [List.append_assoc],
      ⟨d1, c, d2, y, rfl, h1, by simpa [List.append_assoc] using hc, h2, hy, hl⟩, ht, ?_⟩
    simp [List.replicate, List.set, hsep, hl]
    omega
  · rintro ⟨d, t, post, rfl, ⟨d1, c, d2, y, rfl, h1, hc, h2, hy, hl⟩, ht, rfl⟩
    refine ⟨d1, _, by simp [List.append_assoc], h1, c, _, rfl, ?_, d2, _, rfl, h2, _, rfl, y, _,
      rfl, hy, hl, _, rfl, t, post, rfl, ht, ?_⟩
    · simpa [List.append_assoc] using hc
    · simp [List.replicate, List.set, hsep, hl]
      omega
theorem submatches_six (s : GoString) (a b c d e f : Nat) :
    submatches s [a, b, c, d, e, f] = [between s a b, between s c d, between s e f] := by
  simp only [submatches, List.length_cons, List.length_nil]
  have : (0 + 1 + 1 + 1 + 1 + 1 + 1) / 2 = 3 := by norm_num
  rw [this]
  simp [List.range_succ]

theorem doorsDate_head (d after : GoString) (h : IsDoorsDate d after) :
    ∃ b tl, d = b :: tl ∧ b < 0x80 := by
  obtain ⟨d1, c, d2, y, rfl, ⟨hd1, hl⟩, -⟩ := h
  cases d1 with
  | nil => simp at hl
  | cons b d1 => exact ⟨b, d1 ++ c ++ d2 ++ [32] ++ y, by simp, isDigit_lt b (hd1 b (by simp))⟩

/-- A match of `dateTimeRe` in the text makes the search succeed, at a match that starts
no later; the slots are the bounds of that match. -/
theorem dateTimeRe_search_of_match (s pre d t post : GoString)
    (h : IsDoorsMatch s pre d t post) :
    ∃ j d2 t2 post2, j ≤ pre.length ∧ j ≤ s.length ∧ IsDoorsMatch s (s.take j) d2 t2 post2
      ∧ dateTimeRe.doExecute s 0 = some [j, j + d2.length + 15, j, j + d2.length,
          j + d2.length + 10, j + d2.length + 15] := by
  obtain ⟨hs, hd, ht⟩ := h
  obtain ⟨b, tl, hb, hlt⟩ := doorsDate_head d _ hd
  have hdrop : s.drop pre.length = d ++ str " - Doors: " ++ t ++ post := by
    rw [hs]
    simp [List.append_assoc]
  have hdrop2 : s.drop pre.length = b :: (tl ++ str " - Doors: " ++ t ++ post) := by
    rw [hdrop, hb]
    simp
  have hp : Path dateTimeRe.prog (s.drop pre.length) (0 + pre.length) (List.replicate 6 0) _ :=
    (dateTimeRe_path _ _ _).2 ⟨d, t, post, hdrop, hd, ht, rfl⟩
  have hc := backtrack_complete _ _ _ _ _ hp
  obtain ⟨j, caps, hj, hsr, hbj⟩ := search_complete dateTimeRe s 0 0 pre.length b _
    (fun i hi => absurd hi (Nat.not_lt_zero _)) hdrop2 hlt hc
  have hpj := backtrack_sound _ _ _ _ _ hbj
  obtain ⟨d2, t2, post2, hd2, hdd, ht2, hcaps⟩ := (dateTimeRe_path _ _ _).1 hpj
  have hjs : j ≤ s.length := by
    have hl := congrArg List.length hdrop
    simp only [List.length_drop, List.length_append] at hl
    have h8 : (str " - Doors: ").length = 10 := by decide
    omega
  refine ⟨j, d2, t2, post2, hj, hjs, ⟨?_, hdd, ht2⟩, ?_⟩
  · rw [List.append_assoc, List.append_assoc, List.append_assoc]
    rw [List.append_assoc, List.append_assoc] at hd2
    rw [← hd2, List.take_append_drop]
  · simp only [Regexp.doExecute, List.drop_zero, hsr, hcaps, Nat.zero_add]

/-- A successful search of `dateTimeRe` stands on a match of the text. -/
theorem dateTimeRe_search_sound (s : GoString) (caps : List Nat)
    (h : dateTimeRe.doExecute s 0 = some caps) :
    ∃ j d2 t2 post2, IsDoorsMatch s (s.take j) d2 t2 post2
      ∧ caps = [j, j + d2.length + 15, j, j + d2.length, j + d2.length + 10,
          j + d2.length + 15] ∧ s.drop j = d2 ++ str " - Doors: " ++ t2 ++ post2 := by
  simp only [Regexp.doExecute, List.drop_zero] at h
  obtain ⟨j, _, hbj⟩ := search_sound dateTimeRe s 0 0 caps h
  have hpj := backtrack_sound _ _ _ _ _ hbj
  obtain ⟨d2, t2, post2, hd2, hdd, ht2, hcaps⟩ := (dateTimeRe_path _ _ _).1 hpj
  refine ⟨j, d2, t2, post2, ⟨?_, hdd, ht2⟩, by simpa using hcaps, hd2⟩
  rw [List.append_assoc, List.append_assoc, List.append_assoc]
  rw [List.append_assoc, List.append_assoc] at hd2
  rw [← hd2, List.take_append_drop]

/-- The strings `FindStringSubmatch` cuts out at the slots of a match: the match, the date,
the clock time. -/
theorem doors_submatches (s d t post : GoString) (j : Nat) (ht : IsClock t)
    (hd : s.drop j = d ++ str " - Doors: " ++ t ++ post) :
    submatches s [j, j + d.length + 15, j, j + d.length, j + d.length + 10,
        j + d.length + 15] = [d ++ str " - Doors: " ++ t, d, t] := by
  have h10 : (str " - Doors: ").length = 10 := by decide
  have h5 := clock_length t ht
  rw [submatches_six]
  have e1 : between s j (j + d.length + 15) = d ++ str " - Doors: " ++ t := by
    have := between_of_drop s (d ++ str " - Doors: " ++ t) post j hd
    simpa [h10, h5, Nat.add_assoc] using this
  have e2 : between s j (j + d.length) = d :=
    between_of_drop s d (str " - Doors: " ++ t ++ post) j (by simpa [List.append_assoc] using hd)
  have e3 : between s (j + d.length + 10) (j + d.length + 15) = t := by
    have hdd : s.drop (j + d.length + 10) = t ++ post := by
      have : s.drop (j + d.length + 10) = (s.drop j).drop (d.length + 10) := by
        rw [List.drop_drop]
        congr 1
      rw [this, hd]
      rw [show d ++ str " - Doors: " ++ t ++ post = (d ++ str " - Doors: ") ++ (t ++ post) by
        simp [List.append_assoc]]
      exact List.drop_left' (by simp [h10])
    have := between_of_drop s t post (j + d.length + 10) hdd
    simpa [h5, Nat.add_assoc] using this
  rw [e1, e2, e3]
theorem decode_width_le4 (s : GoString) : (DecodeRuneInString s).2 ≤ 4 := by
  cases s with
  | nil => simp [DecodeRuneInString]
  | cons b bs =>
    by_cases h1 : b < 0x80
    · rw [decode_ascii b bs h1]
      omega
    unfold DecodeRuneInString
    dsimp only
    rw [if_neg h1]
    by_cases h2 : b < 194 ∨ 244 < b
    · rw [if_pos h2]
      omega
    rw [if_neg h2]
    by_cases hlen : (List.length bs + 1 < if b < 224 then 2 else if b < 240 then 3 else 4)
    · rw [if_pos hlen]
      omega
    rw [if_neg hlen]
    rcases bs with _ | ⟨s1, t1⟩
    · show 1 ≤ 4
      omega
    dsimp only
    by_cases hs1 : ((s1 < if b = 224 then 160 else if b = 240 then 144 else 128) ∨
                (if b = 237 then 159 else if b = 244 then 143 else 191) < s1)
    · rw [if_pos hs1]
      omega
    rw [if_neg hs1]
    by_cases hz2 : (if b < 224 then 2 else if b < 240 then 3 else 4) ≤ 2
    · rw [if_pos hz2]
      omega
    rw [if_neg hz2]
    rcases t1 with _ | ⟨s2, t2⟩
    · show 1 ≤ 4
      omega
    dsimp only
    by_cases hs2 : s2 < 128 ∨ 191 < s2
    · rw [if_pos hs2]
      omega
    rw [if_neg hs2]
    by_cases hz3 : (if b < 224 then 2 else if b < 240 then 3 else 4) ≤ 3
    · rw [if_pos hz3]
      omega
    rw [if_neg hz3]
    rcases t2 with _ | ⟨s3, t3⟩
    · show 1 ≤ 4
      omega
    dsimp only
    by_cases hs3 : s3 < 128 ∨ 191 < s3
    · rw [if_pos hs3]
      omega
    rw [if_neg hs3]

/-- A date of the pattern has 8 to 13 bytes and ends in a digit. -/
theorem doorsDate_bounds (d after : GoString) (h : IsDoorsDate d after) :
    8 ≤ d.length ∧ d.length ≤ 13
      ∧ ∃ b, d[d.length - 1]? = some b ∧ isDigit b = true := by
  obtain ⟨d1, c, d2, y, rfl, ⟨-, h1⟩, ⟨hc0, -, hcw⟩, ⟨-, h2⟩, hy, hl⟩ := h
  have hc4 : c.length ≤ 4 := by
    rw [← hcw]
    exact decode_width_le4 _
  have hc1 : 1 ≤ c.length := List.length_pos.2 hc0
  have hlen : (d1 ++ c ++ d2 ++ [32] ++ y).length
      = d1.length + c.length + d2.length + 1 + y.length := by
    simp only [List.length_append, List.length_cons, List.length_nil]
  refine ⟨by omega, by omega, ?_⟩
  rcases y with _ | ⟨a, _ | ⟨b, _ | ⟨c2, _ | ⟨e, _ | ⟨f, y⟩⟩⟩⟩⟩ <;> simp at hl
  refine ⟨e, ?_, hy e (by simp)⟩
  rw [List.getElem?_append_right (by simp; omega)]
  have : (d1 ++ c ++ d2 ++ [32] ++ [a, b, c2, e]).length - 1 - (d1 ++ c ++ d2 ++ [32]).length
      = 3 := by
    simp only [List.length_append, List.length_cons, List.length_nil]
    omega
  rw [this]
  rfl

theorem doorsSep_no_digit (k : Nat) (hk : k < 5) (b : Nat)
    (hb : (str " - Doors: ")[k]? = some b) : isDigit b = false := by
  have e : str " - Doors: " = [32, 45, 32, 68, 111, 111, 114, 115, 58, 32] := by decide
  rw [e] at hb
  interval_cases k <;> simp at hb <;> subst hb <;> decide

theorem doors_len_le (d t post d2 t2 post2 : GoString)
    (h : d ++ str " - Doors: " ++ t ++ post = d2 ++ str " - Doors: " ++ t2 ++ post2)
    (hd : IsDoorsDate d (str " - Doors: " ++ t ++ post))
    (hd2 : IsDoorsDate d2 (str " - Doors: " ++ t2 ++ post2)) : d2.length ≤ d.length := by
  by_contra hlt
  obtain ⟨h8, -, -⟩ := doorsDate_bounds d _ hd
  obtain ⟨-, h13, b, hb, hdig⟩ := doorsDate_bounds d2 _ hd2
  have hsep : (str " - Doors: ").length = 10 := by decide
  have e1 : (d2 ++ str " - Doors: " ++ t2 ++ post2)[d2.length - 1]? = some b := by
    rw [List.append_assoc, List.append_assoc, List.getElem?_append_left (by omega)]
    exact hb
  have e2 : (d ++ str " - Doors: " ++ t ++ post)[d2.length - 1]?
      = (str " - Doors: ")[d2.length - 1 - d.length]? := by
    rw [List.append_assoc, List.append_assoc, List.getElem?_append_right (by omega),
      List.getElem?_append_left (by omega)]
  rw [h, e1] at e2
  have := doorsSep_no_digit (d2.length - 1 - d.length) (by omega) b e2.symm
  rw [hdig] at this
  cases this

/-- Two matches of `dateTimeRe` that start at the same place have the same date and the
same clock time. -/
theorem doors_span_unique (d t post d2 t2 post2 : GoString)
    (h : d ++ str " - Doors: " ++ t ++ post = d2 ++ str " - Doors: " ++ t2 ++ post2)
    (hd : IsDoorsDate d (str " - Doors: " ++ t ++ post)) (ht : IsClock t)
    (hd2 : IsDoorsDate d2 (str " - Doors: " ++ t2 ++ post2)) (ht2 : IsClock t2) :
    d = d2 ∧ t = t2 := by
  have hl : d.length = d2.length :=
    Nat.le_antisymm (doors_len_le d2 t2 post2 d t post h.symm hd2 hd)
      (doors_len_le d t post d2 t2 post2 h hd hd2)
  rw [List.append_assoc, List.append_assoc, List.append_assoc, List.append_assoc] at h
  obtain ⟨e1, e2⟩ := List.append_inj h hl
  obtain ⟨-, e3⟩ := List.append_inj e2 rfl
  obtain ⟨e4, -⟩ := List.append_inj e3 (by rw [clock_length t ht, clock_length t2 ht2])
  exact ⟨e1, e4⟩

theorem drop_of_match (s pre d t post : GoString) (h : IsDoorsMatch s pre d t post) :
    s.drop pre.length = d ++ str " - Doors: " ++ t ++ post := by
  rw [h.1]
  simp [List.append_assoc]

/-- The result of dachstock when the search of `dateTimeRe` succeeds at a match. -/
theorem dachstock_of_search (env : Env) (sel : Selection) (j : Nat) (d t post : GoString)
    (ht : IsClock t)
    (hd : ((sel.Find (str ".event-date")).Text).drop j = d ++ str " - Doors: " ++ t ++ post)
    (he : dateTimeRe.doExecute ((sel.Find (str ".event-date")).Text) 0
      = some [j, j + d.length + 15, j, j + d.length, j + d.length + 10, j + d.length + 15]) :
    (dachstockCrawler env).GetDateTimeString sel = some (d ++ t) := by
  simp only [dachstockCrawler, Regexp.FindStringSubmatch, he, doors_submatches _ d t post j ht hd,
    index, List.get?, Option.bind_eq_bind, Option.some_bind, Option.pure_def]

/-- What dachstock does on a text with a match of `dateTimeRe`: the search stops at a
match that starts no later than the given one, and the result is the date and the clock
time of the match it stops at. -/
theorem dachstock_at_first_match (env : Env) (sel : Selection) (pre d t post : GoString)
    (hm : IsDoorsMatch ((sel.Find (str ".event-date")).Text) pre d t post) :
    ∃ j d0 t0 post0, j ≤ pre.length
      ∧ ((sel.Find (str ".event-date")).Text.take j).length = j
      ∧ IsDoorsMatch ((sel.Find (str ".event-date")).Text)
          ((sel.Find (str ".event-date")).Text.take j) d0 t0 post0
      ∧ dateTimeRe.doExecute ((sel.Find (str ".event-date")).Text) 0
          = some [j, j + d0.length + 15, j, j + d0.length, j + d0.length + 10,
              j + d0.length + 15]
      ∧ (dachstockCrawler env).GetDateTimeString sel = some (d0 ++ t0) := by
  obtain ⟨j, d0, t0, post0, hj, hjs, hm0, he⟩ := dateTimeRe_search_of_match _ pre d t post hm
  have hlen : ((sel.Find (str ".event-date")).Text.take j).length = j := by
    rw [List.length_take]
    exact Nat.min_eq_left hjs
  have hd0 := drop_of_match _ _ d0 t0 post0 hm0
  rw [hlen] at hd0
  exact ⟨j, d0, t0, post0, hj, hlen, hm0, he,
    dachstock_of_search env sel j d0 t0 post0 hm0.2.2 hd0 he⟩


/-! ### The cleanup of the spec -/

theorem sz_le (x n : Nat) (hn : 4 ≤ n) :
    ¬ (n < if x < 224 then 2 else if x < 240 then 3 else 4) := by
  split_ifs <;> omega

theorem lo_ascii (x c : Nat) (hc : c < 0x80) :
    (c < if x = 224 then 160 else if x = 240 then 144 else 128) := by
  split_ifs <;> omega

/-- What `DecodeRuneInString` returns does not depend on the text behind an ASCII byte. -/
theorem decode_before_ascii (x : Nat) (a : GoString) (c c2 : Nat) (y y2 : GoString)
    (hc : c < 0x80) (hc2 : c2 < 0x80) :
    DecodeRuneInString (x :: (a ++ c :: y)) = DecodeRuneInString (x :: (a ++ c2 :: y2)) := by
  unfold DecodeRuneInString
  dsimp only
  by_cases h1 : x < 128
  · rw [if_pos h1, if_pos h1]
  rw [if_neg h1, if_neg h1]
  by_cases h2 : x < 194 ∨ 244 < x
  · rw [if_pos h2, if_pos h2]
  rw [if_neg h2, if_neg h2]
  rcases a with _ | ⟨s1, _ | ⟨s2, _ | ⟨s3, a⟩⟩⟩
  · simp only [List.nil_append]
    simp only [Or.inl (lo_ascii x c hc), Or.inl (lo_ascii x c2 hc2), if_true, ite_self]
  · simp only [List.cons_append, List.nil_append]
    by_cases hs1 : ((s1 < if x = 224 then 160 else if x = 240 then 144 else 128) ∨
              (if x = 237 then 159 else if x = 244 then 143 else 191) < s1)
    · simp only [hs1, if_true, ite_self]
    simp only [hs1, if_false]
    by_cases hz2 : (if x < 224 then 2 else if x < 240 then 3 else 4) ≤ 2
    · simp only [hz2, if_true]
      have l1 : ¬ ((s1 :: c :: y).length + 1 < if x < 224 then 2 else if x < 240 then 3 else 4) := by
        simp only [List.length_cons]
        omega
      have l2 : ¬ ((s1 :: c2 :: y2).length + 1
          < if x < 224 then 2 else if x < 240 then 3 else 4) := by
        simp only [List.length_cons]
        omega
      simp only [l1, l2, if_false]
    simp only [hz2, if_false, Or.inl hc, Or.inl hc2, if_true, ite_self]
  · simp only [List.cons_append, List.nil_append]
    by_cases hs1 : ((s1 < if x = 224 then 160 else if x = 240 then 144 else 128) ∨
              (if x = 237 then 159 else if x = 244 then 143 else 191) < s1)
    · simp only [hs1, if_true, ite_self]
    simp only [hs1, if_false]
    by_cases hs2 : s2 < 128 ∨ 191 < s2
    · simp only [hs2, if_true, ite_self]
      have l1 : ¬ ((s1 :: s2 :: c :: y).length + 1
          < if x < 224 then 2 else if x < 240 then 3 else 4) := by
        simp only [List.length_cons]
        exact sz_le x _ (by omega)
      have l2 : ¬ ((s1 :: s2 :: c2 :: y2).length + 1
          < if x < 224 then 2 else if x < 240 then 3 else 4) := by
        simp only [List.length_cons]
        exact sz_le x _ (by omega)
      simp only [l1, l2, if_false]
    simp only [hs2, if_false]
    have l1 : ¬ ((s1 :: s2 :: c :: y).length + 1
        < if x < 224 then 2 else if x < 240 then 3 else 4) := by
      simp only [List.length_cons]
      exact sz_le x _ (by omega)
    have l2 : ¬ ((s1 :: s2 :: c2 :: y2).length + 1
        < if x < 224 then 2 else if x < 240 then 3 else 4) := by
      simp only [List.length_cons]
      exact sz_le x _ (by omega)
    simp only [l1, l2, if_false, Or.inl hc, Or.inl hc2, if_true, ite_self]
  · simp only [List.cons_append]
    have l1 : ¬ ((s1 :: s2 :: s3 :: (a ++ c :: y)).length + 1
        < if x < 224 then 2 else if x < 240 then 3 else 4) := by
      simp only [List.length_cons]
      exact sz_le x _ (by omega)
    have l2 : ¬ ((s1 :: s2 :: s3 :: (a ++ c2 :: y2)).length + 1
        < if x < 224 then 2 else if x < 240 then 3 else 4) := by
      simp only [List.length_cons]
      exact sz_le x _ (by omega)
    simp only [l1, l2, if_false]
theorem asciiSpace_facts (w : Nat) (h : asciiSpace w = true) : w < 0x80 ∧ IsSpace w = true := by
  simp only [asciiSpace, decide_eq_true_eq] at h
  rcases h with rfl | rfl | rfl | rfl | rfl | rfl <;> exact ⟨by omega, by decide⟩

/-- The cleanup of the spec turns a run of ASCII whitespace into one space, or into
nothing behind a space just written. -/
theorem collapse_ascii_run (b : GoString) : ∀ (ws : GoString), ws ≠ [] →
    (∀ c ∈ ws, asciiSpace c = true) → ∀ run : Bool,
    collapseSpaces (ws ++ b) 0 run = (if run then [] else [32]) ++ collapseSpaces b 0 true := by
  intro ws
  induction ws with
  | nil => intro h; exact absurd rfl h
  | cons w ws ih =>
    intro _ hws run
    obtain ⟨hlt, hsp⟩ := asciiSpace_facts w (hws w (by simp))
    rw [List.cons_append, collapseSpaces, decode_ascii w _ hlt]
    simp only [hsp, if_true, Nat.sub_self]
    by_cases hn : ws = []
    · subst hn
      cases run <;> simp
    · have := ih hn (fun c hc => hws c (List.mem_cons_of_mem _ hc)) true
      rw [this]
      cases run <;> simp

/-- The cleanup of the spec gives the same text whether a run of ASCII whitespace or a
single space stands between `a` and `b`. -/
theorem collapse_run_eq (ws b : GoString) (hne : ws ≠ [])
    (hws : ∀ c ∈ ws, asciiSpace c = true) : ∀ (a : GoString) (skip : Nat) (run : Bool),
    (∀ i, i < skip → ∀ c, (a ++ (ws ++ b)).get? i = some c → 0x80 ≤ c) →
    collapseSpaces (a ++ (ws ++ b)) skip run = collapseSpaces (a ++ 32 :: b) skip run := by
  obtain ⟨w, ws2, rfl⟩ := List.exists_cons_of_ne_nil hne
  obtain ⟨hlt, -⟩ := asciiSpace_facts w (hws w (by simp))
  intro a
  induction a with
  | nil =>
    intro skip run hinv
    cases skip with
    | zero =>
      have h1 := collapse_ascii_run b (w :: ws2) hne hws run
      have h2 := collapse_ascii_run b [32] (by simp) (by simp [asciiSpace]) run
      simp only [List.nil_append] at h1 h2 ⊢
      rw [h1]
      exact h2.symm
    | succ k =>
      have := hinv 0 (Nat.succ_pos _) w (by simp)
      omega
  | cons x a ih =>
    intro skip run hinv
    cases skip with
    | zero =>
      have hd : DecodeRuneInString (x :: (a ++ (w :: (ws2 ++ b))))
          = DecodeRuneInString (x :: (a ++ 32 :: b)) :=
        decode_before_ascii x a w 32 _ _ hlt (by omega)
      have hsk : ∀ i, i < (DecodeRuneInString (x :: (a ++ (w :: (ws2 ++ b))))).2 - 1 →
          ∀ c, (a ++ (w :: ws2 ++ b)).get? i = some c → 0x80 ≤ c := by
        intro i hi c hc
        obtain ⟨c2, hc2, hge⟩ := decode_cont x (a ++ (w :: (ws2 ++ b))) i (by omega)
        rw [List.cons_append] at hc
        rw [hc] at hc2
        cases hc2
        exact hge
      rw [List.cons_append, List.cons_append, List.cons_append]
      conv_lhs => rw [collapseSpaces]
      conv_rhs => rw [collapseSpaces]
      rw [← hd]
      split
      · split
        · exact ih _ _ hsk
        · exact congrArg _ (ih _ _ hsk)
      · exact congrArg _ (ih 0 false (fun i hi => absurd hi (Nat.not_lt_zero _)))
    | succ k =>
      show collapseSpaces (a ++ (w :: ws2 ++ b)) k run = collapseSpaces (a ++ 32 :: b) k run
      exact ih k run (fun i hi c hc => hinv (i + 1) (by omega) c (by simpa using hc))

/-! ### Links (C1, C2) -/

/-- With no attribute in the fragment, every adapter but dampfzentrale returns exactly the
base URL of its venue. -/
theorem link_absent_is_base_url (env : Env) (sel : Selection)
    (h : ∀ p n, sel.attr p n = none) :
    ∀ c ∈ Crawlers env, c ≠ dampfzentraleCrawler env → c.link sel = c.venue.URL := by
  intro c hc hne
  simp only [Crawlers, List.mem_cons, List.mem_singleton, List.not_mem_nil, or_false] at hc
  rcases hc with rfl | rfl | rfl | rfl | rfl | rfl | rfl | rfl | rfl | rfl | rfl | rfl | rfl | rfl
  all_goals first
    | exact absurd rfl hne
    | simp [iscCrawler, kiffCrawler, kofmehlCrawler, kairoCrawler, coqDorCrawler,
        dachstockCrawler, turnhalleCrawler, brasserieLorraineCrawler, mahoganyHallCrawler,
        heitereFahneCrawler, onoCrawler, martaCrawler, bierhuebeliCrawler, HTMLCrawler.link,
        Selection.AttrOr, Selection.Attr, Selection.Find, Selection.Parent, Sprint, h, str]

/-- C1, at the adapter that breaks it: when the parent of the fragment has no attribute
`id`, the link of dampfzentrale is the base URL followed by `#`, which is not the base
URL. -/
theorem dampfzentrale_link_absent_id (env : Env) (sel : Selection)
    (h : sel.attr [Nav.parent] (str "id") = none) :
    (dampfzentraleCrawler env).link sel = (dampfzentraleCrawler env).venue.URL ++ str "#"
      ∧ (dampfzentraleCrawler env).link sel ≠ (dampfzentraleCrawler env).venue.URL := by
  have e : (dampfzentraleCrawler env).link sel
      = (dampfzentraleCrawler env).venue.URL ++ str "#" := by
    simp [dampfzentraleCrawler, HTMLCrawler.link, Selection.Parent, Selection.AttrOr, h]
    decide
  refine ⟨e, ?_⟩
  rw [e]
  intro hc
  have hl := congrArg List.length hc
  have h1 : (str "#").length = 1 := by decide
  simp [h1] at hl

theorem dampfzentrale_link_absent_id_witness :
    (Selection.ofText (str "Konzert")).attr [Nav.parent] (str "id") = none
      ∧ (dampfzentraleCrawler specEnv).link (Selection.ofText (str "Konzert"))
          = (dampfzentraleCrawler specEnv).venue.URL ++ str "#"
      ∧ (dampfzentraleCrawler specEnv).link (Selection.ofText (str "Konzert"))
          ≠ (dampfzentraleCrawler specEnv).venue.URL :=
  ⟨rfl, dampfzentrale_link_absent_id specEnv (Selection.ofText (str "Konzert")) rfl⟩

theorem any_key_false {α : Type} (m : GoMap α) (k : GoString) (h : k ∉ m.map Prod.fst) :
    m.any (fun e => e.1 == k) = false := by
  induction m with
  | nil => rfl
  | cons e m ih =>
    simp only [List.map_cons, List.mem_cons, not_or] at h
    simp only [List.any_cons, Bool.or_eq_false_iff]
    refine ⟨?_, ih h.2⟩
    simpa using fun hc => h.1 hc.symm

/-- A map literal with pairwise different keys holds its entries as written. -/
theorem literal_of_nodup {α : Type} (es acc : List (GoString × α))
    (h : (acc.map Prod.fst ++ es.map Prod.fst).Nodup) :
    es.foldl (fun m e => GoMap.insert m e.1 e.2) acc = acc ++ es := by
  induction es generalizing acc with
  | nil => simp
  | cons e es ih =>
    have hk : e.1 ∉ acc.map Prod.fst := by
      intro hc
      rw [List.nodup_append] at h
      exact h.2.2 hc (by simp)
    have hi : GoMap.insert acc e.1 e.2 = acc ++ [e] := by
      simp [GoMap.insert, any_key_false acc e.1 hk]
    rw [List.foldl_cons, hi, ih]
    · simp
    · simpa using h

theorem lookup_of_mem {α : Type} (es : List (GoString × α)) (k : GoString) (v : α)
    (hm : (k, v) ∈ es) (h : (es.map Prod.fst).Nodup) : List.lookup k es = some v := by
  induction es with
  | nil => simp at hm
  | cons e es ih =>
    obtain ⟨k1, v1⟩ := e
    simp only [List.map_cons, List.nodup_cons] at h
    rcases List.mem_cons.1 hm with heq | hin
    · cases heq
      simp [List.lookup]
    · have hne : k ≠ k1 := by
        rintro rfl
        exact h.1 (List.mem_map.2 ⟨(k, v), hin, rfl⟩)
      have hb : (k == k1) = false := by simpa using hne
      simp only [List.lookup, hb]
      exact ih hin h.2

theorem mem_of_lookup {α : Type} (es : List (GoString × α)) (k : GoString) (v : α)
    (h : List.lookup k es = some v) : (k, v) ∈ es := by
  induction es with
  | nil => simp [List.lookup] at h
  | cons e es ih =>
    obtain ⟨k1, v1⟩ := e
    by_cases hk : k = k1
    · subst hk
      simp [List.lookup] at h
      simp [h]
    · have hb : (k == k1) = false := by simpa using hk
      simp only [List.lookup, hb] at h
      exact List.mem_cons_of_mem _ (ih h)

/-- C9: when the registry returns for each of the fourteen keys a venue with that short
name, the map `HTMLCrawlers` has, at each key, an adapter whose venue is the venue of the
registry for that key; the list `Crawlers` has fourteen adapters, no one twice, their
short names are the fourteen keys; every adapter of the list is the value of the map at
its own short name, and every value of the map is in the list. -/
theorem adapter_set_consistent (env : Env)
    (h : ∀ k ∈ venueKeys, (env.GetVenueOrPanic k).ShortName = k) :
    (∀ k ∈ venueKeys, ∃ c, (HTMLCrawlers env).get k = some c
        ∧ c.venue = env.GetVenueOrPanic k)
      ∧ (Crawlers env).length = 14
      ∧ (Crawlers env).Nodup
      ∧ ((Crawlers env).map (fun c => c.venue.ShortName)).Perm venueKeys
      ∧ (∀ c ∈ Crawlers env, (HTMLCrawlers env).get c.venue.ShortName = some c)
      ∧ (∀ k c, (HTMLCrawlers env).get k = some c → c ∈ Crawlers env) := by
  have e1 : (iscCrawler env).venue.ShortName = str "isc" := h _ (by simp [venueKeys])
  have e2 : (kiffCrawler env).venue.ShortName = str "kiff" := h _ (by simp [venueKeys])
  have e3 : (kofmehlCrawler env).venue.ShortName = str "kofmehl" := h _ (by simp [venueKeys])
  have e4 : (kairoCrawler env).venue.ShortName = str "kairo" := h _ (by simp [venueKeys])
  have e5 : (dachstockCrawler env).venue.ShortName = str "dachstock" :=
    h _ (by simp [venueKeys])
  have e6 : (coqDorCrawler env).venue.ShortName = str "coq-d-or" := h _ (by simp [venueKeys])
  have e7 : (turnhalleCrawler env).venue.ShortName = str "turnhalle" :=
    h _ (by simp [venueKeys])
  have e8 : (brasserieLorraineCrawler env).venue.ShortName = str "brasserie-lorraine" :=
    h _ (by simp [venueKeys])
  have e9 : (mahoganyHallCrawler env).venue.ShortName = str "mahogany-hall" :=
    h _ (by simp [venueKeys])
  have e10 : (heitereFahneCrawler env).venue.ShortName = str "heitere-fahne" :=
    h _ (by simp [venueKeys])
  have e11 : (onoCrawler env).venue.ShortName = str "ono" := h _ (by simp [venueKeys])
  have e12 : (martaCrawler env).venue.ShortName = str "marta" := h _ (by simp [venueKeys])
  have e13 : (bierhuebeliCrawler env).venue.ShortName = str "bierhuebeli" :=
    h _ (by simp [venueKeys])
  have e14 : (dampfzentraleCrawler env).venue.ShortName = str "dampfzentrale" :=
    h _ (by simp [venueKeys])
  have hkeys : venueKeys.Nodup := by decide
  have hmap : HTMLCrawlers env = [
      (str "isc", iscCrawler env), (str "kiff", kiffCrawler env),
      (str "kofmehl", kofmehlCrawler env), (str "kairo", kairoCrawler env),
      (str "dachstock", dachstockCrawler env), (str "coq-d-or", coqDorCrawler env),
      (str "turnhalle", turnhalleCrawler env),
      (str "brasserie-lorraine", brasserieLorraineCrawler env),
      (str "mahogany-hall", mahoganyHallCrawler env),
      (str "heitere-fahne", heitereFahneCrawler env), (str "ono", onoCrawler env),
      (str "marta", martaCrawler env), (str "bierhuebeli", bierhuebeliCrawler env),
      (str "dampfzentrale", dampfzentraleCrawler env)] := by
    unfold HTMLCrawlers GoMap.literal
    rw [e1, e2, e3, e4, e5, e6, e7, e8, e9, e10, e11, e12, e13, e14]
    rw [literal_of_nodup]
    · rfl
    · exact hkeys
  have hnd : ((HTMLCrawlers env).map Prod.fst).Nodup := by
    rw [hmap]
    exact hkeys
  have hnames : (Crawlers env).map (fun c => c.venue.ShortName) =
      [str "isc", str "kiff", str "kofmehl", str "kairo", str "coq-d-or", str "dachstock",
        str "turnhalle", str "brasserie-lorraine", str "mahogany-hall", str "heitere-fahne",
        str "ono", str "marta", str "bierhuebeli", str "dampfzentrale"] := by
    simp only [Crawlers, List.map_cons, List.map_nil, e1, e2, e3, e4, e5, e6, e7, e8, e9, e10,
      e11, e12, e13, e14]
  refine ⟨?_, rfl, ?_, ?_, ?_, ?_⟩
  · intro k hk
    simp only [venueKeys, List.mem_cons, List.mem_singleton, List.not_mem_nil, or_false] at hk
    rcases hk with rfl | rfl | rfl | rfl | rfl | rfl | rfl | rfl | rfl | rfl | rfl | rfl
      | rfl | rfl
    · exact ⟨iscCrawler env, lookup_of_mem (HTMLCrawlers env) _ _ (by rw [hmap]; simp) hnd, rfl⟩
    · exact ⟨kiffCrawler env, lookup_of_mem (HTMLCrawlers env) _ _ (by rw [hmap]; simp) hnd, rfl⟩
    · exact ⟨kofmehlCrawler env, lookup_of_mem (HTMLCrawlers env) _ _ (by rw [hmap]; simp) hnd, rfl⟩
    · exact ⟨kairoCrawler env, lookup_of_mem (HTMLCrawlers env) _ _ (by rw [hmap]; simp) hnd, rfl⟩
    · exact ⟨dachstockCrawler env, lookup_of_mem (HTMLCrawlers env) _ _ (by rw [hmap]; simp) hnd, rfl⟩
    · exact ⟨coqDorCrawler env, lookup_of_mem (HTMLCrawlers env) _ _ (by rw [hmap]; simp) hnd, rfl⟩
    · exact ⟨turnhalleCrawler env, lookup_of_mem (HTMLCrawlers env) _ _ (by rw [hmap]; simp) hnd, rfl⟩
    · exact ⟨brasserieLorraineCrawler env, lookup_of_mem (HTMLCrawlers env) _ _ (by rw [hmap]; simp) hnd, rfl⟩
    · exact ⟨mahoganyHallCrawler env, lookup_of_mem (HTMLCrawlers env) _ _ (by rw [hmap]; simp) hnd, rfl⟩
    · exact ⟨heitereFahneCrawler env, lookup_of_mem (HTMLCrawlers env) _ _ (by rw [hmap]; simp) hnd, rfl⟩
    · exact ⟨onoCrawler env, lookup_of_mem (HTMLCrawlers env) _ _ (by rw [hmap]; simp) hnd, rfl⟩
    · exact ⟨martaCrawler env, lookup_of_mem (HTMLCrawlers env) _ _ (by rw [hmap]; simp) hnd, rfl⟩
    · exact ⟨bierhuebeliCrawler env, lookup_of_mem (HTMLCrawlers env) _ _ (by rw [hmap]; simp) hnd, rfl⟩
    · exact ⟨dampfzentraleCrawler env, lookup_of_mem (HTMLCrawlers env) _ _ (by rw [hmap]; simp) hnd, rfl⟩
  · apply List.Nodup.of_map (fun c => c.venue.ShortName)
    rw [hnames]
    decide
  · rw [hnames]
    decide
  · intro c hc
    refine lookup_of_mem (HTMLCrawlers env) c.venue.ShortName c ?_ hnd
    simp only [Crawlers, List.mem_cons, List.mem_singleton, List.not_mem_nil, or_false] at hc
    rw [hmap]
    rcases hc with rfl | rfl | rfl | rfl | rfl | rfl | rfl | rfl | rfl | rfl | rfl | rfl
      | rfl | rfl
    · rw [e1]; simp
    · rw [e2]; simp
    · rw [e3]; simp
    · rw [e4]; simp
    · rw [e6]; simp
    · rw [e5]; simp
    · rw [e7]; simp
    · rw [e8]; simp
    · rw [e9]; simp
    · rw [e10]; simp
    · rw [e11]; simp
    · rw [e12]; simp
    · rw [e13]; simp
    · rw [e14]; simp
  · intro k c hkc
    have hm := mem_of_lookup (HTMLCrawlers env) k c hkc
    have hv : c ∈ (HTMLCrawlers env).map Prod.snd := List.mem_map.2 ⟨(k, c), hm, rfl⟩
    rw [hmap] at hv
    simp only [List.map_cons, List.map_nil] at hv
    refine (List.Perm.mem_iff ?_).1 hv
    unfold Crawlers
    exact ((((List.Perm.swap _ _ _).cons _).cons _).cons _).cons _

theorem adapter_set_consistent_witness :
    (∀ k ∈ venueKeys, (specEnv.GetVenueOrPanic k).ShortName = k)
      ∧ (∀ k ∈ venueKeys, ∃ c, (HTMLCrawlers specEnv).get k = some c
          ∧ c.venue = specEnv.GetVenueOrPanic k)
      ∧ (Crawlers specEnv).length = 14
      ∧ (Crawlers specEnv).Nodup
      ∧ ((Crawlers specEnv).map (fun c => c.venue.ShortName)).Perm venueKeys
      ∧ (∀ c ∈ Crawlers specEnv, (HTMLCrawlers specEnv).get c.venue.ShortName = some c)
      ∧ (∀ k c, (HTMLCrawlers specEnv).get k = some c → c ∈ Crawlers specEnv) :=
  ⟨fun _ _ => rfl, adapter_set_consistent specEnv (fun _ _ => rfl)⟩

/-! ### Format round trip (C8) -/

/-- A date text followed by a clock time matches the format made of the two formats. -/
theorem date_clock_matches (fd date t : GoString) (hd : matchesFormat fd date = true)
    (ht : IsClock t) :
    matchesFormat (fd ++ str "15:04") (date ++ t) = true
      ∧ (date ++ t).length = (fd ++ str "15:04").length := by
  have h := matchesFormat_append fd date _ t hd (clock_matchesFormat t ht)
  exact ⟨h, matchesFormat_length _ _ h⟩

/-- C8 as stated fails at heitere-fahne: the cleaned text is long enough, bytes 3..13 are a
date in the form `02.01.2006`, the text even holds a clock time, and the result does not
match the format, because bytes 33..38 are no clock time. -/
theorem format_round_trip_counterexample :
    slice (TrimSpace (specEnv.StripSomeWhiteSpaces
        (str "Sa 12.03.2020 Doors 19:30 Konzert im grossen Saal"))) 3 13
        = some (str "12.03.2020")
      ∧ matchesFormat (str "02.01.2006") (str "12.03.2020") = true
      ∧ 38 ≤ (TrimSpace (specEnv.StripSomeWhiteSpaces
          (str "Sa 12.03.2020 Doors 19:30 Konzert im grossen Saal"))).length
      ∧ ContainsClock (TrimSpace (specEnv.StripSomeWhiteSpaces
          (str "Sa 12.03.2020 Doors 19:30 Konzert im grossen Saal")))
      ∧ (heitereFahneCrawler specEnv).GetDateTimeString
          (Selection.ofText (str "Sa 12.03.2020 Doors 19:30 Konzert im grossen Saal"))
          = some (str "12.03.2020 im g")
      ∧ matchesFormat (heitereFahneCrawler specEnv).TimeFormat (str "12.03.2020 im g")
          = false := by
  refine ⟨by decide, by decide, by decide, ?_, by decide, by decide⟩
  exact ⟨str "Sa 12.03.2020 Doors ", str "19:30", str " Konzert im grossen Saal", by decide,
    ⟨49, 57, 51, 48, by decide, by decide, by decide, by decide, by decide⟩⟩

/-- C8, amended: for kairo, turnhalle, kofmehl, ono, bierhuebeli and heitere-fahne, when
the bytes at the date offsets of the (cleaned) text are a date in the date part of the
format and, for the adapters that search a time, the text holds a clock time, and, for
heitere-fahne, bytes 33..38 are a clock time, the result matches the `TimeFormat` field
by field and has its length. -/
theorem format_round_trip (env : Env) (sel : Selection) :
    (∀ date, slice (((sel.Find (str ".concerts_date")).Parent).Text) 3 13 = some date →
        matchesFormat (str "02.01.2006") date = true →
        ContainsClock (((sel.Find (str ".concerts_date")).Parent).Text) →
        ∃ r, (kairoCrawler env).GetDateTimeString sel = some r
          ∧ matchesFormat (kairoCrawler env).TimeFormat r = true
          ∧ r.length = (kairoCrawler env).TimeFormat.length)
    ∧ (∀ date, slice ((sel.Find (str "h4")).Text) 4 14 = some date →
        matchesFormat (str "02. 01. 06") date = true →
        ContainsClock ((sel.Find (str "h4")).Text) →
        ∃ r, (turnhalleCrawler env).GetDateTimeString sel = some r
          ∧ matchesFormat (turnhalleCrawler env).TimeFormat r = true
          ∧ r.length = (turnhalleCrawler env).TimeFormat.length)
    ∧ (∀ date, slice ((sel.Find (str "time")).Text) 3 8 = some date →
        matchesFormat (str "02.01") date = true →
        ∃ r, (kofmehlCrawler env).GetDateTimeString sel = some r
          ∧ matchesFormat (kofmehlCrawler env).TimeFormat r = true
          ∧ r.length = (kofmehlCrawler env).TimeFormat.length)
    ∧ (∀ date, slice (env.wrpReplace ((sel.Find (str ".EventInfo.subnav")).Text)) 3 11
          = some date →
        matchesFormat (str "02.01.06") date = true →
        ContainsClock (env.wrpReplace ((sel.Find (str ".EventInfo.subnav")).Text)) →
        ∃ r, (onoCrawler env).GetDateTimeString sel = some r
          ∧ matchesFormat (onoCrawler env).TimeFormat r = true
          ∧ r.length = (onoCrawler env).TimeFormat.length)
    ∧ (∀ date, slice ((sel.Find (str ".evendates")).Text) 8 16 = some date →
        matchesFormat (str "02.01.06") date = true →
        ∃ r, (bierhuebeliCrawler env).GetDateTimeString sel = some r
          ∧ matchesFormat (bierhuebeliCrawler env).TimeFormat r = true
          ∧ r.length = (bierhuebeliCrawler env).TimeFormat.length)
    ∧ (∀ date time,
        slice (TrimSpace (env.StripSomeWhiteSpaces
          (((sel.Find (str ".date + .time")).Parent).Text))) 3 13 = some date →
        matchesFormat (str "02.01.2006") date = true →
        slice (TrimSpace (env.StripSomeWhiteSpaces
          (((sel.Find (str ".date + .time")).Parent).Text))) 33 38 = some time →
        IsClock time →
        ∃ r, (heitereFahneCrawler env).GetDateTimeString sel = some r
          ∧ matchesFormat (heitereFahneCrawler env).TimeFormat r = true
          ∧ r.length = (heitereFahneCrawler env).TimeFormat.length) := by
  have e1 : str "02.01.200615:04" = str "02.01.2006" ++ str "15:04" := by decide
  have e2 : str "02. 01. 0615:04" = str "02. 01. 06" ++ str "15:04" := by decide
  have e3 : str "02.01.0615:04" = str "02.01.06" ++ str "15:04" := by decide
  refine ⟨?_, ?_, ?_, ?_, ?_, ?_⟩
  · intro date hs hm ⟨pre, t, post, hc, ht⟩
    obtain ⟨j, t2, tl, -, -, ht2, hf⟩ := timeRe_FindString_of_contains _ pre t post hc ht
    refine ⟨date ++ t2, ?_, ?_⟩
    · simp only [kairoCrawler, hs, hf, Option.bind_eq_bind, Option.some_bind, Option.pure_def]
    · simp only [kairoCrawler, e1]
      exact date_clock_matches _ _ _ hm ht2
  · intro date hs hm ⟨pre, t, post, hc, ht⟩
    obtain ⟨j, t2, tl, -, -, ht2, hf⟩ := timeRe_FindString_of_contains _ pre t post hc ht
    refine ⟨date ++ t2, ?_, ?_⟩
    · simp only [turnhalleCrawler, hs, findAll_head, hf, Option.bind_eq_bind,
        Option.some_bind, Option.pure_def]
    · simp only [turnhalleCrawler, e2]
      exact date_clock_matches _ _ _ hm ht2
  · intro date hs hm
    refine ⟨date, ?_, ?_⟩
    · simp only [kofmehlCrawler, hs, Option.bind_eq_bind, Option.some_bind, Option.pure_def]
    · simp only [kofmehlCrawler]
      exact ⟨hm, matchesFormat_length _ _ hm⟩
  · intro date hs hm ⟨pre, t, post, hc, ht⟩
    obtain ⟨j, t2, tl, -, -, ht2, hf⟩ := timeRe_FindString_of_contains _ pre t post hc ht
    refine ⟨date ++ t2, ?_, ?_⟩
    · simp only [onoCrawler, hs, hf, Option.bind_eq_bind, Option.some_bind, Option.pure_def]
    · simp only [onoCrawler, e3]
      exact date_clock_matches _ _ _ hm ht2
  · intro date hs hm
    refine ⟨date, ?_, ?_⟩
    · simp only [bierhuebeliCrawler, hs]
    · simp only [bierhuebeliCrawler]
      exact ⟨hm, matchesFormat_length _ _ hm⟩
  · intro date time hs hm hs2 ht
    refine ⟨date ++ time, ?_, ?_⟩
    · simp only [heitereFahneCrawler, hs, hs2, Option.bind_eq_bind, Option.some_bind,
        Option.pure_def]
    · simp only [heitereFahneCrawler, e1]
      exact date_clock_matches _ _ _ hm ht

theorem format_round_trip_witness :
    ContainsClock (((Selection.ofText (str "Fr 12.03.2020 Doors 20:00")).Find
        (str ".concerts_date")).Parent).Text
      ∧ ∃ r, (kairoCrawler specEnv).GetDateTimeString
          (Selection.ofText (str "Fr 12.03.2020 Doors 20:00")) = some r
        ∧ matchesFormat (kairoCrawler specEnv).TimeFormat r = true
        ∧ r.length = (kairoCrawler specEnv).TimeFormat.length :=
  have hc : ContainsClock (((Selection.ofText (str "Fr 12.03.2020 Doors 20:00")).Find
        (str ".concerts_date")).Parent).Text :=
    ⟨str "Fr 12.03.2020 Doors ", str "20:00", [], by decide,
      ⟨50, 48, 48, 48, by decide, by decide, by decide, by decide, by decide⟩⟩
  ⟨hc, (format_round_trip specEnv (Selection.ofText (str "Fr 12.03.2020 Doors 20:00"))).1
    (str "12.03.2020") (by decide) (by decide) hc⟩

/-! ### Time fallback (C4) -/

/-- C4 as stated fails: the text of the kairo fragment has the date `12.03.2020` at bytes
3..13 and no clock time; the result is the date alone, and `time.Parse` with the format
of the adapter rejects it instead of reading it as that day at 00:00. -/
theorem time_fallback_counterexample :
    matchesFormat ((kairoCrawler specEnv).TimeFormat.take 10) (str "12.03.2020") = true
      ∧ slice (str "Fr 12.03.2020 Konzert") 3 13 = some (str "12.03.2020")
      ∧ timeRe.FindString (str "Fr 12.03.2020 Konzert") = []
      ∧ (kairoCrawler specEnv).GetDateTimeString (Selection.ofText (str "Fr 12.03.2020 Konzert"))
          = some (str "12.03.2020")
      ∧ timeParse (kairoCrawler specEnv).TimeFormat (str "12.03.2020") = ParseResult.error
      ∧ timeParse (kairoCrawler specEnv).TimeFormat (str "12.03.2020")
          ≠ ParseResult.ok { year := 2020, month := 3, day := 12, hour := 0, min := 0 }
      ∧ timeParse (kairoCrawler specEnv).TimeFormat (str "12.03.202000:00")
          = ParseResult.ok { year := 2020, month := 3, day := 12, hour := 0, min := 0 } := by
  decide

/-- C4, amended: for kairo, turnhalle, coq-d-or, ono and marta, when the text holds no
clock time, the result is the date text alone, nothing is put in the place of the time;
when that date is written in the date part of the format of the adapter, `time.Parse`
with that format reports an error for the result. -/
theorem time_absent_date_only (env : Env) (sel : Selection) :
    (∀ date, slice (((sel.Find (str ".concerts_date")).Parent).Text) 3 13 = some date →
        ¬ ContainsClock (((sel.Find (str ".concerts_date")).Parent).Text) →
        (kairoCrawler env).GetDateTimeString sel = some date
          ∧ (matchesFormat ((kairoCrawler env).TimeFormat.take 10) date = true →
              timeParse (kairoCrawler env).TimeFormat date = ParseResult.error))
    ∧ (∀ date, slice ((sel.Find (str "h4")).Text) 4 14 = some date →
        ¬ ContainsClock ((sel.Find (str "h4")).Text) →
        (turnhalleCrawler env).GetDateTimeString sel = some date
          ∧ (matchesFormat ((turnhalleCrawler env).TimeFormat.take 10) date = true →
              timeParse (turnhalleCrawler env).TimeFormat date = ParseResult.error))
    ∧ (∀ date, index (Split ((sel.Find (str "td.list_first a")).Text) (str ", ")) 1
          = some date →
        ¬ ContainsClock ((sel.Find (str "div.entry")).Text) →
        (coqDorCrawler env).GetDateTimeString sel = some date
          ∧ (matchesFormat ((coqDorCrawler env).TimeFormat.take 8) date = true →
              timeParse (coqDorCrawler env).TimeFormat date = ParseResult.error))
    ∧ (∀ date, slice (env.wrpReplace ((sel.Find (str ".EventInfo.subnav")).Text)) 3 11
          = some date →
        ¬ ContainsClock (env.wrpReplace ((sel.Find (str ".EventInfo.subnav")).Text)) →
        (onoCrawler env).GetDateTimeString sel = some date
          ∧ (matchesFormat ((onoCrawler env).TimeFormat.take 8) date = true →
              timeParse (onoCrawler env).TimeFormat date = ParseResult.error))
    ∧ (¬ ContainsClock ((sel.Find (str "td:nth-child(4)")).Text) →
        (martaCrawler env).GetDateTimeString sel
            = some ((sel.Find (str "td:nth-child(1)")).Text)
          ∧ (matchesFormat ((martaCrawler env).TimeFormat.take 10)
                ((sel.Find (str "td:nth-child(1)")).Text) = true →
              timeParse (martaCrawler env).TimeFormat ((sel.Find (str "td:nth-child(1)")).Text)
                = ParseResult.error)) := by
  refine ⟨?_, ?_, ?_, ?_, ?_⟩
  · intro date hs hn
    refine ⟨?_, timeParse_longDate_only date⟩
    simp only [kairoCrawler, hs, timeRe_FindString_none _ hn, Option.bind_eq_bind,
      Option.some_bind, Option.pure_def, List.append_nil]
  · intro date hs hn
    refine ⟨?_, timeParse_turnhalleDate_only date⟩
    simp only [turnhalleCrawler, hs, findAll_head, timeRe_FindString_none _ hn,
      Option.bind_eq_bind, Option.some_bind, Option.pure_def, List.append_nil]
  · intro date hs hn
    refine ⟨?_, timeParse_shortDate_only date⟩
    simp only [coqDorCrawler, hs, timeRe_FindString_none _ hn, Option.bind_eq_bind,
      Option.some_bind, Option.pure_def, List.append_nil]
  · intro date hs hn
    refine ⟨?_, timeParse_shortDate_only date⟩
    simp only [onoCrawler, hs, timeRe_FindString_none _ hn, Option.bind_eq_bind,
      Option.some_bind, Option.pure_def, List.append_nil]
  · intro hn
    refine ⟨?_, timeParse_longDate_only _⟩
    simp only [martaCrawler, timeRe_FindString_none _ hn, List.append_nil]

theorem time_absent_date_only_witness :
    ¬ ContainsClock (((Selection.ofText (str "Fr 12.03.2020 Konzert")).Find
        (str ".concerts_date")).Parent).Text
      ∧ (kairoCrawler specEnv).GetDateTimeString (Selection.ofText (str "Fr 12.03.2020 Konzert"))
          = some (str "12.03.2020")
      ∧ timeParse (kairoCrawler specEnv).TimeFormat (str "12.03.2020") = ParseResult.error :=
  have hn : ¬ ContainsClock (((Selection.ofText (str "Fr 12.03.2020 Konzert")).Find
        (str ".concerts_date")).Parent).Text := not_containsClock _ (by decide)
  have h := (time_absent_date_only specEnv (Selection.ofText (str "Fr 12.03.2020 Konzert"))).1
    (str "12.03.2020") (by decide) hn
  ⟨hn, h.1, h.2 (by decide)⟩

/-! ### Leading-zero repair (C7) -/

/-- The result of mahogany-hall on a cleaned text `pfx, day. restUhrsfx` with a day of
digits: `day. rest`, with a `0` in front when the second byte is the dot. -/
theorem mahogany_result (env : Env) (sel : Selection) (pfx day rest sfx : GoString)
    (hpfx : ¬ str ", " <:+: pfx) (hr1 : ¬ str ", " <:+: rest) (hr2 : ¬ str "Uhr" <:+: rest)
    (hday : ∀ b ∈ day, isDigit b = true)
    (hc : env.StripSomeWhiteSpaces ((sel.Find (str ".concert-tueroeffnung")).Text)
      = pfx ++ str ", " ++ day ++ str ". " ++ rest ++ str "Uhr" ++ sfx) :
    (mahoganyHallCrawler env).GetDateTimeString sel
      = (index (day ++ str ". " ++ rest) 1).bind (fun b =>
          if b = 46 then some (str "0" ++ (day ++ str ". " ++ rest))
          else some (day ++ str ". " ++ rest)) := by
  have e1 : str ", " = [44, 32] := by decide
  have e2 : str "Uhr" = [85, 104, 114] := by decide
  have e3 : str ". " = [46, 32] := by decide
  rw [e1] at hpfx hr1
  rw [e2] at hr2
  obtain ⟨p1, hp1, hp⟩ := mahogany_piece pfx day rest sfx hpfx hr1 hr2 hday
  simp only [mahoganyHallCrawler, hc, e1, e2, e3, List.append_assoc, hp1, hp,
    Option.bind_eq_bind, Option.some_bind, Option.pure_def]

/-- C7: on cleaned texts `pfx, day. restUhrsfx` where `pfx` holds no `, ` and `rest` holds
neither `, ` nor `Uhr`, mahogany-hall returns for the one-digit day `d` the text
`0d. rest`, the same string as for the day written `0d`, and for a two-digit day the
text `day. rest` without padding. -/
theorem leading_zero_repair (env : Env) (sel1 sel2 sel3 : Selection)
    (pfx rest sfx : GoString) (d d1 d2 : Nat)
    (hd : isDigit d = true) (hd1 : isDigit d1 = true) (hd2 : isDigit d2 = true)
    (hpfx : ¬ str ", " <:+: pfx) (hr1 : ¬ str ", " <:+: rest) (hr2 : ¬ str "Uhr" <:+: rest)
    (h1 : env.StripSomeWhiteSpaces ((sel1.Find (str ".concert-tueroeffnung")).Text)
      = pfx ++ str ", " ++ [d] ++ str ". " ++ rest ++ str "Uhr" ++ sfx)
    (h2 : env.StripSomeWhiteSpaces ((sel2.Find (str ".concert-tueroeffnung")).Text)
      = pfx ++ str ", " ++ [48, d] ++ str ". " ++ rest ++ str "Uhr" ++ sfx)
    (h3 : env.StripSomeWhiteSpaces ((sel3.Find (str ".concert-tueroeffnung")).Text)
      = pfx ++ str ", " ++ [d1, d2] ++ str ". " ++ rest ++ str "Uhr" ++ sfx) :
    (mahoganyHallCrawler env).GetDateTimeString sel1 = some ([48, d] ++ str ". " ++ rest)
      ∧ (mahoganyHallCrawler env).GetDateTimeString sel2
          = (mahoganyHallCrawler env).GetDateTimeString sel1
      ∧ (mahoganyHallCrawler env).GetDateTimeString sel3
          = some ([d1, d2] ++ str ". " ++ rest) := by
  have e3 : str ". " = [46, 32] := by decide
  have e0 : str "0" = [48] := by decide
  have n1 : d ≠ 46 := digit_ne d 46 hd (by decide)
  have n2 : d2 ≠ 46 := digit_ne d2 46 hd2 (by decide)
  have r1 := mahogany_result env sel1 pfx [d] rest sfx hpfx hr1 hr2
    (by simpa using hd) h1
  have r2 := mahogany_result env sel2 pfx [48, d] rest sfx hpfx hr1 hr2
    (by
      intro b hb
      simp only [List.mem_cons, List.mem_singleton, List.not_mem_nil, or_false] at hb
      rcases hb with rfl | rfl
      · decide
      · exact hd) h2
  have r3 := mahogany_result env sel3 pfx [d1, d2] rest sfx hpfx hr1 hr2
    (by
      intro b hb
      simp only [List.mem_cons, List.mem_singleton, List.not_mem_nil, or_false] at hb
      rcases hb with rfl | rfl
      · exact hd1
      · exact hd2) h3
  have q1 : (mahoganyHallCrawler env).GetDateTimeString sel1
      = some ([48, d] ++ str ". " ++ rest) := by
    rw [r1]
    simp [index, e3, e0]
  refine ⟨q1, ?_, ?_⟩
  · rw [q1, r2]
    simp [index, e3, n1]
  · rw [r3]
    simp [index, e3, n2]

theorem leading_zero_repair_witness :
    (mahoganyHallCrawler specEnv).GetDateTimeString
        (Selection.ofText (str "X, 2. Januar 2020|20.00Uhr"))
        = some ([48, 50] ++ str ". " ++ str "Januar 2020|20.00")
      ∧ (mahoganyHallCrawler specEnv).GetDateTimeString
          (Selection.ofText (str "X, 02. Januar 2020|20.00Uhr"))
        = (mahoganyHallCrawler specEnv).GetDateTimeString
          (Selection.ofText (str "X, 2. Januar 2020|20.00Uhr"))
      ∧ (mahoganyHallCrawler specEnv).GetDateTimeString
          (Selection.ofText (str "X, 12. Januar 2020|20.00Uhr"))
        = some ([49, 50] ++ str ". " ++ str "Januar 2020|20.00") :=
  leading_zero_repair specEnv (Selection.ofText (str "X, 2. Januar 2020|20.00Uhr"))
    (Selection.ofText (str "X, 02. Januar 2020|20.00Uhr"))
    (Selection.ofText (str "X, 12. Januar 2020|20.00Uhr"))
    (str "X") (str "Januar 2020|20.00") [] 50 49 50 (by decide) (by decide) (by decide)
    (by decide) (by decide) (by decide) (by decide) (by decide) (by decide)

/-! ### Pattern extraction (C6) -/

/-- C6: when the text of the dachstock fragment holds a match of `dateTimeRe`, there is a
leftmost one, and `GetDateTimeString` returns its date (group 1) followed by its clock
time (group 2); every match that starts where the leftmost one starts has that same date
and clock time, so the result is the date and the time of any leftmost match. -/
theorem dachstock_pattern_extraction (env : Env) (sel : Selection) (pre d t post : GoString)
    (hm : IsDoorsMatch ((sel.Find (str ".event-date")).Text) pre d t post) :
    (∃ pre0 d0 t0 post0, IsDoorsMatch ((sel.Find (str ".event-date")).Text) pre0 d0 t0 post0
        ∧ (∀ pre2 d2 t2 post2,
            IsDoorsMatch ((sel.Find (str ".event-date")).Text) pre2 d2 t2 post2 →
            pre0.length ≤ pre2.length)
        ∧ (dachstockCrawler env).GetDateTimeString sel = some (d0 ++ t0))
      ∧ ((∀ pre2 d2 t2 post2,
            IsDoorsMatch ((sel.Find (str ".event-date")).Text) pre2 d2 t2 post2 →
            pre.length ≤ pre2.length) →
          (dachstockCrawler env).GetDateTimeString sel = some (d ++ t)) := by
  obtain ⟨j, d0, t0, post0, hj, hlen, hm0, he, hres⟩ :=
    dachstock_at_first_match env sel pre d t post hm
  have hleft0 : ∀ pre2 d2 t2 post2,
      IsDoorsMatch ((sel.Find (str ".event-date")).Text) pre2 d2 t2 post2 →
      j ≤ pre2.length := by
    intro pre2 d2 t2 post2 hm2
    obtain ⟨j2, d3, t3, post3, hj2, -, -, he2, -⟩ :=
      dachstock_at_first_match env sel pre2 d2 t2 post2 hm2
    rw [he] at he2
    have : j = j2 := by
      have := congrArg (fun l => l.headD 0) (Option.some.inj he2)
      simpa using this
    omega
  refine ⟨⟨_, d0, t0, post0, hm0, ?_, hres⟩, ?_⟩
  · intro pre2 d2 t2 post2 hm2
    rw [hlen]
    exact hleft0 pre2 d2 t2 post2 hm2
  · intro hleft
    have h1 := hleft _ d0 t0 post0 hm0
    rw [hlen] at h1
    have hjp : j = pre.length := Nat.le_antisymm hj h1
    have hd0 := drop_of_match _ _ d0 t0 post0 hm0
    rw [hlen] at hd0
    have hd := drop_of_match _ pre d t post hm
    rw [← hjp, hd0] at hd
    obtain ⟨e1, e2⟩ := doors_span_unique d0 t0 post0 d t post hd hm0.2.1 hm0.2.2 hm.2.1 hm.2.2
    rw [← e1, ← e2]
    exact hres

theorem dachstock_pattern_extraction_witness :
    IsDoorsMatch (((Selection.ofText (str "Fr 12.3 2020 - Doors: 20:00 Uhr")).Find
        (str ".event-date")).Text) (str "Fr ") (str "12.3 2020") (str "20:00") (str " Uhr")
      ∧ (∃ pre0 d0 t0 post0,
          IsDoorsMatch (((Selection.ofText (str "Fr 12.3 2020 - Doors: 20:00 Uhr")).Find
            (str ".event-date")).Text) pre0 d0 t0 post0
          ∧ (∀ pre2 d2 t2 post2,
              IsDoorsMatch (((Selection.ofText (str "Fr 12.3 2020 - Doors: 20:00 Uhr")).Find
                (str ".event-date")).Text) pre2 d2 t2 post2 →
              pre0.length ≤ pre2.length)
          ∧ (dachstockCrawler specEnv).GetDateTimeString
              (Selection.ofText (str "Fr 12.3 2020 - Doors: 20:00 Uhr")) = some (d0 ++ t0))
      ∧ (dachstockCrawler specEnv).GetDateTimeString
          (Selection.ofText (str "Fr 12.3 2020 - Doors: 20:00 Uhr"))
          = some (str "12.3 202020:00") :=
  have hm : IsDoorsMatch (((Selection.ofText (str "Fr 12.3 2020 - Doors: 20:00 Uhr")).Find
      (str ".event-date")).Text) (str "Fr ") (str "12.3 2020") (str "20:00") (str " Uhr") :=
    ⟨by decide,
      ⟨str "12", str ".", str "3", str "2020", by decide, ⟨by decide, by decide⟩,
        ⟨by decide, by decide, by decide⟩, ⟨by decide, by decide⟩, by decide, by decide⟩,
      ⟨50, 48, 48, 48, by decide, by decide, by decide, by decide, by decide⟩⟩
  ⟨hm, (dachstock_pattern_extraction specEnv
    (Selection.ofText (str "Fr 12.3 2020 - Doors: 20:00 Uhr")) (str "Fr ") (str "12.3 2020")
    (str "20:00") (str " Uhr") hm).1, by decide⟩

/-! ### The shape of the dachstock result (C10) -/

/-- Whatever dachstock returns is a date of `dateTimeRe`, with any character between day
and month, followed by a clock time. -/
theorem dachstock_result_shape (env : Env) (sel : Selection) (r : GoString)
    (h : (dachstockCrawler env).GetDateTimeString sel = some r) :
    ∃ d t after, r = d ++ t ∧ IsDoorsDate d after ∧ IsClock t := by
  cases he : dateTimeRe.doExecute ((sel.Find (str ".event-date")).Text) 0 with
  | none =>
    simp [dachstockCrawler, Regexp.FindStringSubmatch, he, index] at h
  | some caps =>
    obtain ⟨j, d2, t2, post2, hm, rfl, hd⟩ := dateTimeRe_search_sound _ caps he
    have hres := dachstock_of_search env sel j d2 t2 post2 hm.2.2 hd he
    rw [hres] at h
    exact ⟨d2, t2, _, (Option.some.inj h).symm, hm.2.1, hm.2.2⟩

theorem slice_ne_none (s : GoString) (lo hi : Nat) :
    slice s lo hi ≠ none ↔ lo ≤ hi ∧ hi ≤ s.length := by
  unfold slice
  split <;> simp_all

theorem bind_some_ne_none {α β : Type} (o : Option α) (f : α → β) :
    (o.bind (fun a => some (f a))) ≠ none ↔ o ≠ none := by
  cases o <;> simp

/-- C3 as stated fails: a text shorter than the slice of kofmehl, a text the pattern of
dachstock does not match, a text without the `, ` coq-d-or splits on: each time
`GetDateTimeString` ends in the out-of-range fault. -/
theorem extraction_faults_counterexample :
    (kofmehlCrawler specEnv).GetDateTimeString (Selection.ofText (str "Fr 1.")) = none
      ∧ (dachstockCrawler specEnv).GetDateTimeString (Selection.ofText (str "heute")) = none
      ∧ (coqDorCrawler specEnv).GetDateTimeString (Selection.ofText (str "12.03.20")) = none := by
  decide

/-- C3, amended: `GetDateTimeString` returns exactly when the text fits the adapter; it
raises the out-of-range fault otherwise. The adapters with fixed offsets need the
(cleaned) text to reach the last offset, coq-d-or needs a `, ` in the text, dachstock a
match of `dateTimeRe`, mahogany-hall a `, ` and two bytes in the piece it cuts; isc, marta
and dampfzentrale always return. -/
theorem extraction_returns_iff (env : Env) (sel : Selection) :
    ((kairoCrawler env).GetDateTimeString sel ≠ none
        ↔ 13 ≤ (((sel.Find (str ".concerts_date")).Parent).Text).length)
    ∧ ((dachstockCrawler env).GetDateTimeString sel ≠ none
        ↔ ∃ pre d t post, IsDoorsMatch ((sel.Find (str ".event-date")).Text) pre d t post)
    ∧ ((turnhalleCrawler env).GetDateTimeString sel ≠ none
        ↔ 14 ≤ ((sel.Find (str "h4")).Text).length)
    ∧ ((brasserieLorraineCrawler env).GetDateTimeString sel ≠ none
        ↔ 11 ≤ ((sel.Find (str ".tribe-event-date-start")).Text).length)
    ∧ ((kofmehlCrawler env).GetDateTimeString sel ≠ none
        ↔ 8 ≤ ((sel.Find (str "time")).Text).length)
    ∧ ((kiffCrawler env).GetDateTimeString sel ≠ none
        ↔ 3 ≤ ((sel.Find (str ".event-date")).Text).length)
    ∧ ((coqDorCrawler env).GetDateTimeString sel ≠ none
        ↔ str ", " <:+: (sel.Find (str "td.list_first a")).Text)
    ∧ (iscCrawler env).GetDateTimeString sel ≠ none
    ∧ (((mahoganyHallCrawler env).GetDateTimeString sel ≠ none
        ↔ ∃ p1 p, index (Split (env.StripSomeWhiteSpaces
              ((sel.Find (str ".concert-tueroeffnung")).Text)) (str ", ")) 1 = some p1
            ∧ index (Split p1 (str "Uhr")) 0 = some p ∧ 2 ≤ p.length)
      ∧ ((mahoganyHallCrawler env).GetDateTimeString sel ≠ none →
          str ", " <:+: env.StripSomeWhiteSpaces
            ((sel.Find (str ".concert-tueroeffnung")).Text)))
    ∧ ((heitereFahneCrawler env).GetDateTimeString sel ≠ none
        ↔ 38 ≤ (TrimSpace (env.StripSomeWhiteSpaces
            (((sel.Find (str ".date + .time")).Parent).Text))).length)
    ∧ ((onoCrawler env).GetDateTimeString sel ≠ none
        ↔ 11 ≤ (env.wrpReplace ((sel.Find (str ".EventInfo.subnav")).Text)).length)
    ∧ (martaCrawler env).GetDateTimeString sel ≠ none
    ∧ ((bierhuebeliCrawler env).GetDateTimeString sel ≠ none
        ↔ 16 ≤ ((sel.Find (str ".evendates")).Text).length)
    ∧ (dampfzentraleCrawler env).GetDateTimeString sel ≠ none := by
  have hsep : str ", " ≠ [] := by decide
  refine ⟨?_, ?_, ?_, ?_, ?_, ?_, ?_, ?_, ⟨?_, ?_⟩, ?_, ?_, ?_, ?_, ?_⟩
  · simp only [kairoCrawler, Option.bind_eq_bind, Option.pure_def, bind_some_ne_none,
      slice_ne_none]
    omega
  · constructor
    · intro h
      cases he : dateTimeRe.doExecute ((sel.Find (str ".event-date")).Text) 0 with
      | none =>
        simp [dachstockCrawler, Regexp.FindStringSubmatch, he, index] at h
      | some caps =>
        obtain ⟨j, d2, t2, post2, hm, -, -⟩ := dateTimeRe_search_sound _ caps he
        exact ⟨_, d2, t2, post2, hm⟩
    · rintro ⟨pre, d, t, post, hm⟩
      obtain ⟨-, d0, t0, -, -, -, -, -, hres⟩ := dachstock_at_first_match env sel pre d t post hm
      rw [hres]
      simp
  · simp only [turnhalleCrawler, findAll_head, Option.bind_eq_bind, Option.pure_def,
      bind_some_ne_none, slice_ne_none]
    omega
  · simp only [brasserieLorraineCrawler, Option.bind_eq_bind, Option.pure_def,
      bind_some_ne_none, slice_ne_none]
    omega
  · simp only [kofmehlCrawler, Option.bind_eq_bind, Option.pure_def, Option.bind_some,
      slice_ne_none]
    omega
  · simp only [kiffCrawler, sliceFrom]
    split <;> simp_all
  · simp only [coqDorCrawler, Option.bind_eq_bind, Option.pure_def, bind_some_ne_none]
    cases hi : Index ((sel.Find (str "td.list_first a")).Text) (str ", ") with
    | none =>
      rw [index1_split_none _ _ hi]
      simpa using (Index_none_iff _ _).1 hi
    | some m =>
      rw [index1_split _ _ hsep m hi]
      constructor
      · intro _
        by_contra hn
        have hc := (Index_none_iff _ _).2 hn
        rw [hi] at hc
        cases hc
      · intro _
        simp
  · simp [iscCrawler]
  · simp only [mahoganyHallCrawler, Option.bind_eq_bind, Option.pure_def]
    constructor
    · intro h
      cases h1 : index (Split (env.StripSomeWhiteSpaces
          ((sel.Find (str ".concert-tueroeffnung")).Text)) (str ", ")) 1 with
      | none => simp [h1] at h
      | some p1 =>
        cases h2 : index (Split p1 (str "Uhr")) 0 with
        | none => simp [h1, h2] at h
        | some p =>
          cases h3 : index p 1 with
          | none => simp [h1, h2, h3] at h
          | some b =>
            refine ⟨p1, p, rfl, h2, ?_⟩
            unfold index at h3
            have := List.get?_eq_some.1 h3
            obtain ⟨hlt, -⟩ := this
            omega
    · rintro ⟨p1, p, h1, h2, hl⟩
      have h3 : ∃ b, index p 1 = some b := ⟨p.get ⟨1, by omega⟩, by
        unfold index
        exact List.get?_eq_get _⟩
      obtain ⟨b, h3⟩ := h3
      simp only [h1, h2, h3, Option.some_bind]
      split <;> simp
  · intro h
    by_contra hn
    have hi := (Index_none_iff _ _).2 hn
    simp [mahoganyHallCrawler, index1_split_none _ _ hi] at h
  · simp only [heitereFahneCrawler, Option.bind_eq_bind, Option.pure_def]
    constructor
    · intro h
      cases h1 : slice (TrimSpace (env.StripSomeWhiteSpaces
          (((sel.Find (str ".date + .time")).Parent).Text))) 33 38 with
      | none =>
        cases h0 : slice (TrimSpace (env.StripSomeWhiteSpaces
          (((sel.Find (str ".date + .time")).Parent).Text))) 3 13 <;> simp [h0, h1] at h
      | some b =>
        have := (slice_ne_none _ 33 38).1 (by rw [h1]; simp)
        exact this.2
    · intro h
      have h0 := (slice_ne_none (TrimSpace (env.StripSomeWhiteSpaces
          (((sel.Find (str ".date + .time")).Parent).Text))) 3 13).2 ⟨by omega, by omega⟩
      have h1 := (slice_ne_none (TrimSpace (env.StripSomeWhiteSpaces
          (((sel.Find (str ".date + .time")).Parent).Text))) 33 38).2 ⟨by omega, by omega⟩
      obtain ⟨a, ha⟩ := Option.ne_none_iff_exists'.1 h0
      obtain ⟨b, hb⟩ := Option.ne_none_iff_exists'.1 h1
      simp [ha, hb]
  · simp only [onoCrawler, Option.bind_eq_bind, Option.pure_def, bind_some_ne_none,
      slice_ne_none]
    omega
  · simp [martaCrawler]
  · simp only [bierhuebeliCrawler, slice_ne_none]
    omega
  · simp [dampfzentraleCrawler]

theorem extraction_returns_iff_witness :
    (kofmehlCrawler specEnv).GetDateTimeString (Selection.ofText (str "Fr 12.03.")) ≠ none
      ∧ ¬ (kofmehlCrawler specEnv).GetDateTimeString (Selection.ofText (str "Fr 1.")) ≠ none :=
  ⟨(extraction_returns_iff specEnv (Selection.ofText (str "Fr 12.03."))).2.2.2.2.1.2
      (by decide),
    fun h => absurd ((extraction_returns_iff specEnv
      (Selection.ofText (str "Fr 1."))).2.2.2.2.1.1 h) (by decide)⟩

/-! ### Whitespace cleanup (C5) -/

/-- C5 as stated fails: the two texts differ only in that a newline and a space in the
first are a single space in the second, and kofmehl, which slices the text as it comes,
returns different strings. -/
theorem cleanup_counterexample :
    (kofmehlCrawler specEnv).GetDateTimeString
        (Selection.ofText (str "Fr" ++ [10, 32] ++ str "12.03.")) = some (str " 12.0")
      ∧ (kofmehlCrawler specEnv).GetDateTimeString
        (Selection.ofText (str "Fr" ++ [32] ++ str "12.03.")) = some (str "12.03")
      ∧ (kofmehlCrawler specEnv).GetDateTimeString
          (Selection.ofText (str "Fr" ++ [10, 32] ++ str "12.03."))
        ≠ (kofmehlCrawler specEnv).GetDateTimeString
          (Selection.ofText (str "Fr" ++ [32] ++ str "12.03.")) := by
  decide

/-- C5, amended: mahogany-hall and heitere-fahne (through `StripSomeWhiteSpaces`) and ono
(through `wrp.Replace`) clean the text before they cut it. Two fragments whose texts are
cleaned to the same string give the same result; and when the cleanup is the one the spec
describes, two texts that differ only in that a run of ASCII whitespace in one is a single
space in the other give the same result. The other seven adapters (kairo, dachstock,
turnhalle, brasserie-lorraine, kofmehl, kiff, bierhuebeli) cut the text as it comes: their
result is the same whatever the cleanup functions of the package are, and each of them
has two texts, one with a newline and a space where the other has a single space, with
different results. -/
theorem cleanup_precedes_extraction (env : Env) (sel1 sel2 : Selection) :
    (env.StripSomeWhiteSpaces ((sel1.Find (str ".concert-tueroeffnung")).Text)
        = env.StripSomeWhiteSpaces ((sel2.Find (str ".concert-tueroeffnung")).Text) →
      (mahoganyHallCrawler env).GetDateTimeString sel1
        = (mahoganyHallCrawler env).GetDateTimeString sel2)
    ∧ (env.StripSomeWhiteSpaces (((sel1.Find (str ".date + .time")).Parent).Text)
        = env.StripSomeWhiteSpaces (((sel2.Find (str ".date + .time")).Parent).Text) →
      (heitereFahneCrawler env).GetDateTimeString sel1
        = (heitereFahneCrawler env).GetDateTimeString sel2)
    ∧ (env.wrpReplace ((sel1.Find (str ".EventInfo.subnav")).Text)
        = env.wrpReplace ((sel2.Find (str ".EventInfo.subnav")).Text) →
      (onoCrawler env).GetDateTimeString sel1 = (onoCrawler env).GetDateTimeString sel2)
    ∧ (∀ a ws b : GoString, ws ≠ [] → (∀ c ∈ ws, asciiSpace c = true) →
        (env.StripSomeWhiteSpaces = specEnv.StripSomeWhiteSpaces →
          (sel1.Find (str ".concert-tueroeffnung")).Text = a ++ ws ++ b →
          (sel2.Find (str ".concert-tueroeffnung")).Text = a ++ [32] ++ b →
          (mahoganyHallCrawler env).GetDateTimeString sel1
            = (mahoganyHallCrawler env).GetDateTimeString sel2)
        ∧ (env.StripSomeWhiteSpaces = specEnv.StripSomeWhiteSpaces →
          ((sel1.Find (str ".date + .time")).Parent).Text = a ++ ws ++ b →
          ((sel2.Find (str ".date + .time")).Parent).Text = a ++ [32] ++ b →
          (heitereFahneCrawler env).GetDateTimeString sel1
            = (heitereFahneCrawler env).GetDateTimeString sel2)
        ∧ (env.wrpReplace = specEnv.wrpReplace →
          (sel1.Find (str ".EventInfo.subnav")).Text = a ++ ws ++ b →
          (sel2.Find (str ".EventInfo.subnav")).Text = a ++ [32] ++ b →
          (onoCrawler env).GetDateTimeString sel1
            = (onoCrawler env).GetDateTimeString sel2))
    ∧ ((∀ env2 : Env, (kairoCrawler env).GetDateTimeString sel1
          = (kairoCrawler env2).GetDateTimeString sel1)
      ∧ (kairoCrawler env).GetDateTimeString
          (Selection.ofText (str "Fr" ++ [10, 32] ++ str "12.03.2020 20:00"))
        ≠ (kairoCrawler env).GetDateTimeString
          (Selection.ofText (str "Fr" ++ [32] ++ str "12.03.2020 20:00")))
    ∧ ((∀ env2 : Env, (dachstockCrawler env).GetDateTimeString sel1
          = (dachstockCrawler env2).GetDateTimeString sel1)
      ∧ (dachstockCrawler env).GetDateTimeString
          (Selection.ofText (str "12.3" ++ [10, 32] ++ str "2020 - Doors: 20:00"))
        ≠ (dachstockCrawler env).GetDateTimeString
          (Selection.ofText (str "12.3" ++ [32] ++ str "2020 - Doors: 20:00")))
    ∧ ((∀ env2 : Env, (turnhalleCrawler env).GetDateTimeString sel1
          = (turnhalleCrawler env2).GetDateTimeString sel1)
      ∧ (turnhalleCrawler env).GetDateTimeString
          (Selection.ofText (str "Fre" ++ [10, 32] ++ str "12. 03. 20 20:00"))
        ≠ (turnhalleCrawler env).GetDateTimeString
          (Selection.ofText (str "Fre" ++ [32] ++ str "12. 03. 20 20:00")))
    ∧ ((∀ env2 : Env, (brasserieLorraineCrawler env).GetDateTimeString sel1
          = (brasserieLorraineCrawler env2).GetDateTimeString sel1)
      ∧ (brasserieLorraineCrawler env).GetDateTimeString
          (Selection.ofText (str "March" ++ [10, 32] ++ str "12, 8pm"))
        ≠ (brasserieLorraineCrawler env).GetDateTimeString
          (Selection.ofText (str "March" ++ [32] ++ str "12, 8pm")))
    ∧ ((∀ env2 : Env, (kofmehlCrawler env).GetDateTimeString sel1
          = (kofmehlCrawler env2).GetDateTimeString sel1)
      ∧ (kofmehlCrawler env).GetDateTimeString
          (Selection.ofText (str "Fr" ++ [10, 32] ++ str "12.03."))
        ≠ (kofmehlCrawler env).GetDateTimeString
          (Selection.ofText (str "Fr" ++ [32] ++ str "12.03.")))
    ∧ ((∀ env2 : Env, (kiffCrawler env).GetDateTimeString sel1
          = (kiffCrawler env2).GetDateTimeString sel1)
      ∧ (kiffCrawler env).GetDateTimeString
          (Selection.ofText (str "Fr" ++ [10, 32] ++ str "12 Mar"))
        ≠ (kiffCrawler env).GetDateTimeString
          (Selection.ofText (str "Fr" ++ [32] ++ str "12 Mar")))
    ∧ ((∀ env2 : Env, (bierhuebeliCrawler env).GetDateTimeString sel1
          = (bierhuebeliCrawler env2).GetDateTimeString sel1)
      ∧ (bierhuebeliCrawler env).GetDateTimeString
          (Selection.ofText (str "Freitag" ++ [10, 32] ++ str "12.03.20"))
        ≠ (bierhuebeliCrawler env).GetDateTimeString
          (Selection.ofText (str "Freitag" ++ [32] ++ str "12.03.20"))) := by
  have hm : env.StripSomeWhiteSpaces ((sel1.Find (str ".concert-tueroeffnung")).Text)
        = env.StripSomeWhiteSpaces ((sel2.Find (str ".concert-tueroeffnung")).Text) →
      (mahoganyHallCrawler env).GetDateTimeString sel1
        = (mahoganyHallCrawler env).GetDateTimeString sel2 := by
    intro h
    simp only [mahoganyHallCrawler, h]
  have hh : env.StripSomeWhiteSpaces (((sel1.Find (str ".date + .time")).Parent).Text)
        = env.StripSomeWhiteSpaces (((sel2.Find (str ".date + .time")).Parent).Text) →
      (heitereFahneCrawler env).GetDateTimeString sel1
        = (heitereFahneCrawler env).GetDateTimeString sel2 := by
    intro h
    simp only [heitereFahneCrawler, h]
  have ho : env.wrpReplace ((sel1.Find (str ".EventInfo.subnav")).Text)
        = env.wrpReplace ((sel2.Find (str ".EventInfo.subnav")).Text) →
      (onoCrawler env).GetDateTimeString sel1 = (onoCrawler env).GetDateTimeString sel2 := by
    intro h
    simp only [onoCrawler, h]
  have r1 : (kairoCrawler specEnv).GetDateTimeString
        (Selection.ofText (str "Fr" ++ [10, 32] ++ str "12.03.2020 20:00"))
      ≠ (kairoCrawler specEnv).GetDateTimeString
        (Selection.ofText (str "Fr" ++ [32] ++ str "12.03.2020 20:00")) := by
    decide
  have r2 : (dachstockCrawler specEnv).GetDateTimeString
        (Selection.ofText (str "12.3" ++ [10, 32] ++ str "2020 - Doors: 20:00"))
      ≠ (dachstockCrawler specEnv).GetDateTimeString
        (Selection.ofText (str "12.3" ++ [32] ++ str "2020 - Doors: 20:00")) := by
    decide
  have r3 : (turnhalleCrawler specEnv).GetDateTimeString
        (Selection.ofText (str "Fre" ++ [10, 32] ++ str "12. 03. 20 20:00"))
      ≠ (turnhalleCrawler specEnv).GetDateTimeString
        (Selection.ofText (str "Fre" ++ [32] ++ str "12. 03. 20 20:00")) := by
    decide
  have r4 : (brasserieLorraineCrawler specEnv).GetDateTimeString
        (Selection.ofText (str "March" ++ [10, 32] ++ str "12, 8pm"))
      ≠ (brasserieLorraineCrawler specEnv).GetDateTimeString
        (Selection.ofText (str "March" ++ [32] ++ str "12, 8pm")) := by
    decide
  have r5 : (kofmehlCrawler specEnv).GetDateTimeString
        (Selection.ofText (str "Fr" ++ [10, 32] ++ str "12.03."))
      ≠ (kofmehlCrawler specEnv).GetDateTimeString
        (Selection.ofText (str "Fr" ++ [32] ++ str "12.03.")) := by
    decide
  have r6 : (kiffCrawler specEnv).GetDateTimeString
        (Selection.ofText (str "Fr" ++ [10, 32] ++ str "12 Mar"))
      ≠ (kiffCrawler specEnv).GetDateTimeString
        (Selection.ofText (str "Fr" ++ [32] ++ str "12 Mar")) := by
    decide
  have r7 : (bierhuebeliCrawler specEnv).GetDateTimeString
        (Selection.ofText (str "Freitag" ++ [10, 32] ++ str "12.03.20"))
      ≠ (bierhuebeliCrawler specEnv).GetDateTimeString
        (Selection.ofText (str "Freitag" ++ [32] ++ str "12.03.20")) := by
    decide
  refine ⟨hm, hh, ho, ?_, ⟨fun _ => rfl, r1⟩, ⟨fun _ => rfl, r2⟩, ⟨fun _ => rfl, r3⟩,
    ⟨fun _ => rfl, r4⟩, ⟨fun _ => rfl, r5⟩, ⟨fun _ => rfl, r6⟩, ⟨fun _ => rfl, r7⟩⟩
  intro a ws b hne hws
  have key : collapseSpaces (a ++ ws ++ b) 0 false = collapseSpaces (a ++ [32] ++ b) 0 false := by
    have := collapse_run_eq ws b hne hws a 0 false (fun i hi => absurd hi (Nat.not_lt_zero _))
    simpa [List.append_assoc] using this
  refine ⟨?_, ?_, ?_⟩
  · intro he h1 h2
    apply hm
    rw [he, h1, h2]
    exact key
  · intro he h1 h2
    apply hh
    rw [he, h1, h2]
    exact key
  · intro he h1 h2
    apply ho
    rw [he, h1, h2]
    exact key

theorem cleanup_precedes_extraction_witness :
    specEnv.StripSomeWhiteSpaces (((Selection.ofText
          (str "X," ++ [10, 9, 32] ++ str "2. Januar 2020|20.00Uhr")).Find
          (str ".concert-tueroeffnung")).Text)
        = specEnv.StripSomeWhiteSpaces (((Selection.ofText
          (str "X," ++ [32] ++ str "2. Januar 2020|20.00Uhr")).Find
          (str ".concert-tueroeffnung")).Text)
      ∧ (mahoganyHallCrawler specEnv).GetDateTimeString
          (Selection.ofText (str "X," ++ [10, 9, 32] ++ str "2. Januar 2020|20.00Uhr"))
        = (mahoganyHallCrawler specEnv).GetDateTimeString
          (Selection.ofText (str "X," ++ [32] ++ str "2. Januar 2020|20.00Uhr"))
      ∧ (onoCrawler specEnv).GetDateTimeString
          (Selection.ofText (str "Fr" ++ [10, 9, 32] ++ str "12.03.20 20:00"))
        = (onoCrawler specEnv).GetDateTimeString
          (Selection.ofText (str "Fr" ++ [32] ++ str "12.03.20 20:00")) :=
  ⟨by decide,
    (cleanup_precedes_extraction specEnv
      (Selection.ofText (str "X," ++ [10, 9, 32] ++ str "2. Januar 2020|20.00Uhr"))
      (Selection.ofText (str "X," ++ [32] ++ str "2. Januar 2020|20.00Uhr"))).1 (by decide),
    ((cleanup_precedes_extraction specEnv
      (Selection.ofText (str "Fr" ++ [10, 9, 32] ++ str "12.03.20 20:00"))
      (Selection.ofText (str "Fr" ++ [32] ++ str "12.03.20 20:00"))).2.2.2.1
      (str "Fr") [10, 9, 32] (str "12.03.20 20:00") (by decide) (by decide)).2.2 rfl rfl rfl⟩

end Wasgeit
